import Mathlib

/-!
Shallow embedding of the dynamic HL7 ORU_R01 message generator
(`src/deepseek_python_20251105_ec8995.py`) and proofs about it.

Modelling conventions:
* Python values flowing through the generator (JSON-like data) are modelled by
  the mutually inductive type `Json` / `JList` / `JObj`.  A Python `dict` is an
  insertion-ordered association structure (`JObj`); `None` is `Json.null`.
* Python exceptions raised by the translated code are modelled with
  `Except PyExc`; an uncaught exception is an `Except.error`.
* `datetime.now()` is modelled by an oracle stream `clk : Nat → String` of
  already-formatted timestamp strings together with a running index: each call
  of `_get_timestamp` (resp. `isoformat` in the batch runner) consumes the next
  element of the stream.  This makes the sampling points of the wall clock
  explicit while keeping every function pure.
* Python's `str.upper()` is modelled by `Char.toUpper` (the basic-latin
  uppercase map); configuration and record keys are ASCII in this program.
* Python's stable `sorted` is modelled by a stable insertion sort
  (`stable_sort_by_seq`); any two stable sorts by the same key agree.
* Interpolating a list or dict value into an f-string uses `pyStr`, which
  renders containers without Python's `repr` quoting; no property proved here
  depends on how container values are printed.
-/

/-! ### Python-style JSON values -/

mutual

/-- Values of the Python data tree handed to `generate_hl7`: `None`, booleans,
integers, strings, lists and (insertion-ordered) dicts. -/
inductive Json where
  | null : Json
  | bool (b : Bool) : Json
  | int (n : Int) : Json
  | str (s : String) : Json
  | list (xs : JList) : Json
  | obj (kvs : JObj) : Json

/-- Spine of a Python list of `Json` values. -/
inductive JList where
  | nil : JList
  | cons (x : Json) (xs : JList) : JList

/-- Spine of a Python dict with string keys, in insertion order. -/
inductive JObj where
  | nil : JObj
  | cons (k : String) (v : Json) (kvs : JObj) : JObj

end

/-- Build a `JList` from a Lean list (for writing concrete inputs). -/
def jlist : List Json → JList
  | [] => .nil
  | x :: xs => .cons x (jlist xs)

/-- Build a `JObj` from a Lean association list (for writing concrete inputs). -/
def jobj : List (String × Json) → JObj
  | [] => .nil
  | (k, v) :: ps => .cons k v (jobj ps)

/-- Python `k in d` / `d[k]` / `d.get(k)` on a dict: first binding of the key. -/
def JObj.lookup : JObj → String → Option Json
  | .nil, _ => none
  | .cons l w rest, k => if l == k then some w else JObj.lookup rest k

/-- Python `d.get(k, default)`. -/
def JObj.getD (kvs : JObj) (k : String) (d : Json) : Json :=
  match kvs.lookup k with
  | some v => v
  | none => d

/-- Whether the dict already has a binding for `k`. -/
def JObj.hasKey (kvs : JObj) (k : String) : Bool := (kvs.lookup k).isSome

/-- Replace the (first) binding of `k` in place, keeping its position. -/
def JObj.setVal : JObj → String → Json → JObj
  | .nil, _, _ => .nil
  | .cons l w rest, k, v =>
      if l == k then .cons l v rest else .cons l w (JObj.setVal rest k v)

/-- Python `d[k] = v` on an insertion-ordered dict: update in place when the
key exists, otherwise append a new binding at the end. -/
def JObj.insert (kvs : JObj) (k : String) (v : Json) : JObj :=
  if kvs.hasKey k then kvs.setVal k v else
  match kvs with
  | .nil => .cons k v .nil
  | .cons l w rest => .cons l w (JObj.insert rest k v)

/-- Python truthiness of a value (`if value:`): `None`, `False`, `0`, `""` and
empty containers are falsy, everything else truthy. -/
def pyTruthy : Json → Bool
  | .null => false
  | .bool b => b
  | .int n => n != 0
  | .str s => s != ""
  | .list .nil => false
  | .list _ => true
  | .obj .nil => false
  | .obj _ => true

mutual

/-- Python `str(value)` as used when a value is interpolated into an f-string.
Containers are rendered without `repr` quoting of inner strings (a documented
simplification; nothing proved below depends on container rendering). -/
def pyStr : Json → String
  | .null => "None"
  | .bool b => if b then "True" else "False"
  | .int n => toString n
  | .str s => s
  | .list xs => "[" ++ pyStrJList xs ++ "]"
  | .obj kvs => "\x7b" ++ pyStrJObj kvs ++ "\x7d"

/-- Comma-joined rendering of list elements. -/
def pyStrJList : JList → String
  | .nil => ""
  | .cons x .nil => pyStr x
  | .cons x xs => pyStr x ++ ", " ++ pyStrJList xs

/-- Comma-joined rendering of dict items. -/
def pyStrJObj : JObj → String
  | .nil => ""
  | .cons k v .nil => k ++ ": " ++ pyStr v
  | .cons k v kvs => k ++ ": " ++ pyStr v ++ ", " ++ pyStrJObj kvs

end

/-- Python `value or ""` (and the `{x or ''}` interpolations): the rendered
value when truthy, the empty string otherwise. -/
def orEmptyStr (v : Json) : String := if pyTruthy v then pyStr v else ""

/-! ### Key normalization (source lines 92–102 and line 42) -/

/-- One character of `key.replace(' ', '_').replace('-', '_').upper()`
(all three operations act characterwise). -/
def normChar (c : Char) : Char :=
  Char.toUpper (if c = ' ' ∨ c = '-' then '_' else c)

/-- Key normalization applied to record keys by `_normalize_json_data`
(line 97): spaces and hyphens to underscore, then uppercase. -/
def normalizeKey (s : String) : String := String.mk (s.data.map normChar)

/-- One character of `row['JSON_ATTRIBUTE'].replace(' ', '_').upper()`
(line 42; note: no hyphen replacement on the configuration side). -/
def normAttrChar (c : Char) : Char :=
  Char.toUpper (if c = ' ' then '_' else c)

/-- Attribute-name normalization applied to configuration rows (line 42). -/
def normalizeAttr (s : String) : String := String.mk (s.data.map normAttrChar)

/-- Dict-insert every item of the second dict into the first, left to right
(the `normalized[normalized_key] = ...` loop of `_normalize_json_data`:
colliding keys are overwritten dict-style). -/
def jobjInsertAll : JObj → JObj → JObj
  | acc, .nil => acc
  | acc, .cons k v rest => jobjInsertAll (acc.insert k v) rest

mutual

/-- `_normalize_json_data` (lines 92–102): recursively normalize every dict
key; values of colliding normalized keys are overwritten dict-style. -/
def normalize_json_data : Json → Json
  | .null => .null
  | .bool b => .bool b
  | .int n => .int n
  | .str s => .str s
  | .list xs => .list (normalizeJList xs)
  | .obj kvs => .obj (jobjInsertAll .nil (normalizePairs kvs))

/-- List part of `_normalize_json_data`. -/
def normalizeJList : JList → JList
  | .nil => .nil
  | .cons x xs => .cons (normalize_json_data x) (normalizeJList xs)

/-- Itemwise part of `_normalize_json_data` on a dict: normalize each key and
each value in iteration order (the dict-style insertion happens in
`jobjInsertAll`, exactly as the source's loop interleaves them). -/
def normalizePairs : JObj → JObj
  | .nil => .nil
  | .cons k v kvs => .cons (normalizeKey k) (normalize_json_data v) (normalizePairs kvs)

end

/-! ### Path resolution: `_get_field_value` (source lines 108–126) -/

/-- The Python exceptions this program can raise. -/
inductive PyExc where
  | attributeError : PyExc
  | keyError : PyExc
  | indexError : PyExc
  | typeError : PyExc
  | valueError : PyExc
deriving DecidableEq, Repr

/-- Python `str(e)`-style text used for batch error outcomes (the exact
wording of interpreter messages is not modelled; no claim depends on it). -/
def pyExcText : PyExc → String
  | .attributeError => "AttributeError"
  | .keyError => "KeyError"
  | .indexError => "IndexError"
  | .typeError => "TypeError"
  | .valueError => "ValueError"

/-- `field_path.split('.')` on the character list (Python `str.split` with an
explicit separator: `""` splits to `[""]`, separators at the ends produce
empty pieces). -/
def splitDot : List Char → List (List Char)
  | [] => [[]]
  | c :: cs =>
      if c = '.' then [] :: splitDot cs
      else
        match splitDot cs with
        | [] => [[c]]
        | h :: t => (c :: h) :: t

/-- `field_path.split('.')`. -/
def splitPath (s : String) : List String := (splitDot s.data).map String.mk

/-- `[item.get(key) for item in current]` (line 119): projecting a key across
a list raises `AttributeError` as soon as an element is not a dict. -/
def projItems (k : String) : JList → Except PyExc JList
  | .nil => .ok .nil
  | .cons x xs =>
      match x with
      | .obj kvs => do
          let rest ← projItems k xs
          .ok (.cons (kvs.getD k .null) rest)
      | _ => .error .attributeError

/-- The key loop of `_get_field_value` (lines 111–124).  `Json.null` plays the
role of Python's `None` result (`return None`). -/
def getValueAt : Json → List String → Except PyExc Json
  | cur, [] => .ok cur
  | cur, k :: rest =>
      match cur with
      | .obj kvs =>
          match kvs.lookup k with
          | some v => getValueAt v rest
          | none => .ok .null
      | .list (.cons x xs) =>
          match x with
          | .obj kvs0 =>
              if (kvs0.lookup k).isSome then
                match projItems k (.cons x xs) with
                | .error e => .error e
                | .ok items => getValueAt (.list items) rest
              else .ok .null
          | _ => .ok .null
      | _ => .ok .null

/-- `_get_field_value` (lines 108–126): the loop wrapped in
`except (KeyError, IndexError, TypeError): return None`.  `AttributeError`
(raised by `projItems`) is NOT in the except clause and propagates. -/
def get_field_value (d : Json) (path : String) : Except PyExc Json :=
  match getValueAt d (splitPath path) with
  | .error .keyError => .ok .null
  | .error .indexError => .ok .null
  | .error .typeError => .ok .null
  | r => r

/-! ### Configuration compilation: `_build_dynamic_mappings` (lines 29–90) -/

/-- One CSV configuration row as produced by `csv.DictReader`: an association
of column names to cell strings (a column missing from the CSV header has no
binding at all, so `row['COL']` raises `KeyError`). -/
def Row : Type := List (String × String)

/-- First binding of a column in a row. -/
def rowFind (r : Row) (k : String) : Option String :=
  match r with
  | [] => none
  | (l, v) :: rest => if l == k then some v else rowFind rest k

/-- Python `row[k]`: `KeyError` when the column is absent. -/
def rowItem (r : Row) (k : String) : Except PyExc String :=
  match rowFind r k with
  | some v => .ok v
  | none => .error .keyError

/-- Python `row.get(k, default)`. -/
def rowGetD (r : Row) (k : String) (d : String) : String := (rowFind r k).getD d

/-- Whether a character counts as whitespace for Python `int(str)`. -/
def pyIntSpace (c : Char) : Bool := c = ' ' || c = '\t' || c = '\n' || c = '\r'

/-- Digit accumulation for `int(str)`. -/
def digitsVal : List Char → Int
  | [] => 0
  | c :: cs => (Int.ofNat c.toNat - 48) * (10 : Int) ^ cs.length + digitsVal cs

/-- Signed body of `int(str)` after whitespace stripping: an optional sign
followed by a non-empty digit string; anything else raises `ValueError`.
(Underscore digit grouping is not modelled; no configuration in the claims
uses it.) -/
def pyIntBody (cs : List Char) : Except PyExc Int :=
  match cs with
  | [] => .error .valueError
  | c :: rest =>
      if c = '-' then
        if rest ≠ [] ∧ rest.all Char.isDigit then .ok (-(digitsVal rest)) else .error .valueError
      else if c = '+' then
        if rest ≠ [] ∧ rest.all Char.isDigit then .ok (digitsVal rest) else .error .valueError
      else if (c :: rest).all Char.isDigit then .ok (digitsVal (c :: rest))
      else .error .valueError

/-- Python `int(s)` on a string: strip surrounding whitespace, then parse a
signed decimal literal; raises `ValueError` on failure. -/
def pyInt (s : String) : Except PyExc Int :=
  pyIntBody (((s.data.dropWhile pyIntSpace).reverse.dropWhile pyIntSpace).reverse)

/-- The per-row `field_config` dict (lines 45–55). -/
structure FieldConfig where
  identifier : String
  display_name : String
  data_type : String
  unit : String
  sequence : Int
  json_attribute : String
  child_obr : String
  segment_id : String
  hl7_key : String
deriving DecidableEq, Repr

/-- The `mappings` dict built by `_build_dynamic_mappings` (lines 31–36).
The inner dicts are insertion-ordered association lists, like Python dicts. -/
structure Mappings where
  segment_order : List String
  segments : List (String × List (String × FieldConfig))
  obr_sections : List (String × List FieldConfig)
  field_sequence : List (String × Int)
deriving DecidableEq, Repr

/-- Python dict assignment `d[k] = v` on a Lean-level association list:
in-place update when the key exists, append otherwise. -/
def dinsert {α : Type} (l : List (String × α)) (k : String) (v : α) : List (String × α) :=
  if l.any (fun p => p.1 == k) then l.map (fun p => if p.1 == k then (k, v) else p)
  else l ++ [(k, v)]

/-- Python dict lookup on a Lean-level association list. -/
def lookupA {α : Type} (l : List (String × α)) (k : String) : Option α :=
  (l.find? (fun p => p.1 == k)).map Prod.snd

/-- `int(row['SEQUENCE']) if row['SEQUENCE'] else 999` (line 50): the default
applies exactly when the cell is falsy (the empty string); a non-empty cell
goes through `int(...)`, which raises `ValueError` when unparseable. -/
def parseSeqCell (s : String) : Except PyExc Int :=
  if s ≠ "" then pyInt s else pure 999

/-- Extraction and normalization of one configuration row (lines 39–55),
in source order of the dictionary accesses; any missing required column
raises `KeyError`, an invalid non-empty sequence raises `ValueError`. -/
def compileRow (row : Row) : Except PyExc (String × String × String × FieldConfig) := do
  let segment ← rowItem row "SEGMENT"
  let segment_id := rowGetD row "SEGMENT_ID" ""
  let child_obr := rowGetD row "CHILD_OBR" ""
  let ja ← rowItem row "JSON_ATTRIBUTE"
  let json_attr := normalizeAttr ja
  let hl7_key := rowGetD row "HL7_KEY" ""
  let identifier ← rowItem row "IDENTIFIER"
  let display_name ← rowItem row "DISPLAY_NAME"
  let data_type ← rowItem row "DATA_TYPE"
  let unitStr := rowGetD row "UNIT" ""
  let seqStr ← rowItem row "SEQUENCE"
  let sequence ← parseSeqCell seqStr
  .ok (segment, json_attr, child_obr,
    { identifier := identifier, display_name := display_name, data_type := data_type,
      unit := unitStr, sequence := sequence, json_attribute := json_attr,
      child_obr := child_obr, segment_id := segment_id, hl7_key := hl7_key })

/-- Folding one row into the mappings under construction (lines 57–75). -/
def addRow (m : Mappings) (row : Row) : Except PyExc Mappings := do
  let (segment, json_attr, child_obr, fc) ← compileRow row
  let so := if m.segment_order.contains segment then m.segment_order
            else m.segment_order ++ [segment]
  let segs := if (lookupA m.segments segment).isSome then m.segments
              else dinsert m.segments segment []
  let obrSecs := dinsert m.obr_sections child_obr
    (((lookupA m.obr_sections child_obr).getD []) ++ [fc])
  let directSegs := dinsert segs segment
    (dinsert ((lookupA segs segment).getD []) json_attr fc)
  let m1 : Mappings :=
    if segment == "OBX" && child_obr != "" then
      { m with segment_order := so, segments := segs, obr_sections := obrSecs }
    else
      { m with segment_order := so, segments := directSegs }
  let fs := dinsert m1.field_sequence (segment ++ "_" ++ json_attr) fc.sequence
  .ok { m1 with field_sequence := fs }

/-- The row loop of `_build_dynamic_mappings` before the sorting phase. -/
def buildRawMappings (rows : List Row) : Except PyExc Mappings :=
  rows.foldlM addRow ⟨[], [], [], []⟩

/-- Stable insertion of `a` after every element whose key is `≤ key a`
(so elements with equal keys keep their arrival order). -/
def insBySeq {α : Type} (key : α → Int) (a : α) : List α → List α
  | [] => [a]
  | b :: bs => if key b ≤ key a then b :: insBySeq key a bs else a :: b :: bs

/-- Stable sort by an integer key, modelling Python's stable `sorted(...)`
(lines 77–88). -/
def stable_sort_by_seq {α : Type} (key : α → Int) (l : List α) : List α :=
  l.foldl (fun acc a => insBySeq key a acc) []

/-- The sorting phase of `_build_dynamic_mappings` (lines 77–88): each
segment's field dict and each OBR section's field list is sorted by the
`sequence` entry. -/
def sortMappings (m : Mappings) : Mappings :=
  { m with
    segments := m.segments.map
      (fun p => (p.1, stable_sort_by_seq (fun q => q.2.sequence) p.2)),
    obr_sections := m.obr_sections.map
      (fun p => (p.1, stable_sort_by_seq (fun fc => fc.sequence) p.2)) }

/-- `_build_dynamic_mappings` (lines 29–90). -/
def build_dynamic_mappings (rows : List Row) : Except PyExc Mappings :=
  (buildRawMappings rows).map sortMappings

/-! ### Output segments (the f-strings of lines 128–180, 196, 259–270, 285–307)

Each emitted line is modelled by a `Seg` constructor holding exactly the
data-dependent parts of the corresponding f-string; `render` reproduces the
f-string verbatim. -/

/-- One output segment line. -/
inductive Seg where
  | msh (ts1 ts2 ver : String) : Seg
  | bhs (ts btype bid : String) : Seg
  | pid (set_id : Nat) (id_fields : List String) (name : String) : Seg
  | pv1 (set_id : Nat) (clinic : String) : Seg
  | orc (tid ts : String) : Seg
  | obrFixed : Seg
  | nte1 (tid : String) : Seg
  | nte2 : Seg
  | obxDevice (dt : String) : Seg
  | obr (counter : Nat) (identifier display : String) : Seg
  | obx (obx_set : Nat) (dtype ident dn : String) (obr_set : Nat) (val unitStr : String) : Seg
  | bts : Seg
deriving DecidableEq, Repr

/-- Rendering of one segment line, matching the source f-strings byte for
byte (the `unit_str` of `_add_obx_segment` is `"|" + unit` when the unit is
non-empty, `""` otherwise; `.pid` joins with `'|'` after padding the
identifier fields up to four entries). -/
def render : Seg → String
  | .msh ts1 ts2 ver =>
      "MSH|^~\\&|SENDING_APP|SENDING_FACILITY|RECEIVING_APP|RECEIVING_FACILITY|" ++
        ts1 ++ "||ORU^R01|" ++ ts2 ++ "|P|" ++ ver
  | .bhs ts btype bid =>
      "BHS|^~\\&|SENDING_APP|SENDING_FACILITY|RECEIVING_APP|RECEIVING_FACILITY|" ++
        ts ++ "||BatchType-" ++ btype ++ "||" ++ bid
  | .pid sid ids nm =>
      "|".intercalate (["PID", toString sid] ++ ids ++ List.replicate (4 - ids.length) "" ++ [nm])
  | .pv1 sid clinic => "PV1|" ++ toString sid ++ "|o|^^^" ++ clinic
  | .orc tid ts => "ORC|RE|" ++ tid ++ "|FILLER_ID|||||||" ++ ts
  | .obrFixed => "OBR|1|||VITAL_SIGNS^Vitals Panel^CLINIC_APP|||20251015123423"
  | .nte1 tid => "NTE|1||Treatment ID: " ++ tid ++ "|"
  | .nte2 => "NTE|2||Clinic Timezone: PST"
  | .obxDevice dt => "OBX|1|ST|DEVICE_TYPE^Device Type|1|" ++ dt ++ "||||||F"
  | .obr c ident dn =>
      "OBR|" ++ toString c ++ "|||" ++ ident ++ "^" ++ dn ++ "|||202510151234" ++ toString (23 + c)
  | .obx oset dt ident dn rset v u =>
      "OBX|" ++ toString oset ++ "|" ++ dt ++ "|" ++ ident ++ "^" ++ dn ++ "|" ++ toString rset ++
        "|" ++ v ++ (if u ≠ "" then "|" ++ u else "") ++ "|||||F"
  | .bts => "BTS|1|final segment|100"

/-- `self.version` (line 11). -/
def hl7_version : String := "2.5"

/-- Python `value is None`. -/
def Json.isNull : Json → Bool
  | .null => true
  | _ => false

/-! ### `_build_segment` (lines 128–180) -/

/-- The BHS branch (lines 138–143).  `data.get('BATCH', {})` raises
`AttributeError` when the record is not a dict; the timestamp inside the
f-string is sampled before `batch_data.get('TYPE', ...)`, which raises
`AttributeError` when the `BATCH` value is not a dict. -/
def build_BHS (d : Json) (clk : Nat → String) (i : Nat) : Except PyExc (List Seg) × Nat :=
  match d with
  | .obj kvs =>
      let batch := kvs.getD "BATCH" (.obj .nil)
      let ts := clk i
      match batch with
      | .obj bkvs =>
          (.ok [Seg.bhs ts (pyStr (bkvs.getD "TYPE" (.str "Normal")))
                  (pyStr (bkvs.getD "ID" (.str "")))], i + 1)
      | _ => (.error .attributeError, i + 1)
  | _ => (.error .attributeError, i)

/-- The identifier accumulation of the PID branch (lines 149–156), iterating
the PID field configs in their sorted order. -/
def pid_id_fields (d : Json) : List (String × FieldConfig) → Except PyExc (List String)
  | [] => .ok []
  | (_, fc) :: rest => do
      let v ← get_field_value d ("PATIENT_INFO." ++ fc.json_attribute)
      let tok : List String :=
        if pyTruthy v then
          if fc.json_attribute == "ERP_PATIENT_ID" || fc.json_attribute == "BAXTER_PATIENT_ID" then
            [pyStr v ++ "^^^Baxter_Patient_ID"]
          else if fc.json_attribute == "CLINIC_PATIENT_ID" then
            [pyStr v ++ "^^^Clinic_Patient_ID"]
          else []
        else []
      let toks ← pid_id_fields d rest
      .ok (tok ++ toks)

/-- The PID branch (lines 145–170); `segments['PID']` raises `KeyError` when
the configuration has no PID rows. -/
def build_PID (segs : List (String × List (String × FieldConfig))) (d : Json) (sid : Nat) :
    Except PyExc (List Seg) :=
  match lookupA segs "PID" with
  | none => .error .keyError
  | some pidMap => do
      let ids ← pid_id_fields d pidMap
      let fn ← get_field_value d "PATIENT_INFO.FIRST_NAME"
      let ln ← get_field_value d "PATIENT_INFO.LAST_NAME"
      let mn ← get_field_value d "PATIENT_INFO.MIDDLE_NAME"
      let nm := if pyTruthy fn || pyTruthy ln then
          orEmptyStr ln ++ "^" ++ orEmptyStr fn ++ "^" ++ orEmptyStr mn
        else ""
      .ok [Seg.pid sid ids nm]

/-- The PV1 branch (lines 172–174). -/
def build_PV1 (d : Json) (sid : Nat) : Except PyExc (List Seg) := do
  let v ← get_field_value d "PATIENT_INFO.CLINIC_NAME"
  .ok [Seg.pv1 sid (if pyTruthy v then pyStr v else "XYZClinic")]

/-- The ORC branch (lines 176–178): the treatment-id lookup happens before
the f-string samples the timestamp. -/
def build_ORC (d : Json) (clk : Nat → String) (i : Nat) : Except PyExc (List Seg) × Nat :=
  match get_field_value d "PATIENT_INFO.TREATMENT_ID" with
  | .error e => (.error e, i)
  | .ok v => (.ok [Seg.orc (orEmptyStr v) (clk i)], i + 1)

/-- `_build_segment` (lines 128–180): string dispatch over the segment type;
an unknown type yields no segments.  The MSH branch samples the timestamp
twice, left to right. -/
def build_segment (m : Mappings) (t : String) (d : Json) (sid : Nat)
    (clk : Nat → String) (i : Nat) : Except PyExc (List Seg) × Nat :=
  if t == "MSH" then (.ok [Seg.msh (clk i) (clk (i + 1)) hl7_version], i + 2)
  else if t == "BHS" then build_BHS d clk i
  else if t == "PID" then (build_PID m.segments d sid, i)
  else if t == "PV1" then (build_PV1 d sid, i)
  else if t == "ORC" then build_ORC d clk i
  else (.ok [], i)

/-! ### `_add_obx_segment`, `_process_nested_obx`, `_build_obr_section`
(lines 182–270) -/

/-- `_add_obx_segment` (lines 259–270) as a pure segment constructor. -/
def add_obx_segment (fc : FieldConfig) (value : Json) (obr_set obx_set : Nat) : Seg :=
  Seg.obx obx_set fc.data_type fc.identifier fc.display_name obr_set (pyStr value) fc.unit

/-- The matching-config search of `_process_nested_obx` (lines 238–242 and
249–253): first OBX config of the child group whose attribute equals `attr`. -/
def find_matching_config (secs : List (String × List FieldConfig)) (child : String)
    (attr : String) : Option FieldConfig :=
  ((lookupA secs child).getD []).find? (fun c => c.json_attribute == attr)

/-- The `CYCLEATTRIBUTES` inner loop of `_process_nested_obx` (lines
236–246), threading the local OBX counter. -/
def cycle_attrs_loop (secs : List (String × List FieldConfig)) (child : String)
    (obr_c : Nat) : JObj → Nat → List Seg × Nat
  | .nil, xc => ([], xc)
  | .cons ak av rest, xc =>
      match find_matching_config secs child ak with
      | some mc =>
          let (s2, xc2) := cycle_attrs_loop secs child obr_c rest (xc + 1)
          (add_obx_segment mc av obr_c xc :: s2, xc2)
      | none => cycle_attrs_loop secs child obr_c rest xc

/-- The item loop of `_process_nested_obx` (lines 234–257).  When the
`CYCLEATTRIBUTES` value is not a dict, `value.items()` raises
`AttributeError`. -/
def process_nested_loop (secs : List (String × List FieldConfig)) (child : String)
    (obr_c : Nat) : JObj → Nat → Except PyExc (List Seg × Nat)
  | .nil, xc => .ok ([], xc)
  | .cons k v rest, xc =>
      if k == "CYCLEATTRIBUTES" then
        match v with
        | .obj attrs => do
            let (s1, xc1) := cycle_attrs_loop secs child obr_c attrs xc
            let (s2, xc2) ← process_nested_loop secs child obr_c rest xc1
            .ok (s1 ++ s2, xc2)
        | _ => .error .attributeError
      else
        match find_matching_config secs child k with
        | some mc => do
            let (s2, xc2) ← process_nested_loop secs child obr_c rest (xc + 1)
            .ok (add_obx_segment mc v obr_c xc :: s2, xc2)
        | none => process_nested_loop secs child obr_c rest xc

/-- `_process_nested_obx` (lines 229–257): returns the OBX segments appended
for one nested record; the caller's counters are unaffected (Python passes
`obx_counter` by value and the function returns `None`). -/
def process_nested_obx (secs : List (String × List FieldConfig)) (nested : JObj)
    (obr_c : Nat) (fc : FieldConfig) (xc : Nat) : Except PyExc (List Seg) :=
  (process_nested_loop secs fc.child_obr obr_c nested xc).map Prod.fst

/-- The `for item in field_value` loop of `_build_obr_section` (lines
213–222): a dict item is sent to `_process_nested_obx`, after which the
parent counter increments and the local OBX counter resets to 1; any other
item becomes one OBX segment. -/
def obx_items_loop (secs : List (String × List FieldConfig)) (fc : FieldConfig) :
    JList → Nat → Nat → Except PyExc (List Seg × Nat × Nat)
  | .nil, oc, xc => .ok ([], oc, xc)
  | .cons item rest, oc, xc =>
      match item with
      | .obj kvs => do
          let s1 ← process_nested_obx secs kvs oc fc xc
          let (s2, oc2, xc2) ← obx_items_loop secs fc rest (oc + 1) 1
          .ok (s1 ++ s2, oc2, xc2)
      | _ => do
          let (s2, oc2, xc2) ← obx_items_loop secs fc rest oc (xc + 1)
          .ok (add_obx_segment fc item oc xc :: s2, oc2, xc2)

/-- The value resolution of one OBX field config (lines 205–209): resolve the
attribute at the record root, falling back to `section.attribute` when the
first lookup yields `None`. -/
def resolve_obx_value (sec : String) (d : Json) (fc : FieldConfig) : Except PyExc Json := do
  let v0 ← get_field_value d fc.json_attribute
  if v0.isNull then get_field_value d (sec ++ "." ++ fc.json_attribute) else .ok v0

/-- The per-field emission step of `_build_obr_section` (lines 211–225) on an
already-resolved value: `None` emits nothing and leaves both counters alone,
a list goes through the item loop, and any other value emits one OBX segment
and bumps the local OBX counter. -/
def obx_field_step (secs : List (String × List FieldConfig)) (fc : FieldConfig)
    (v : Json) (oc xc : Nat) : Except PyExc (List Seg × Nat × Nat) :=
  if v.isNull then .ok ([], oc, xc)
  else
    match v with
    | .list items => obx_items_loop secs fc items oc xc
    | _ => .ok ([add_obx_segment fc v oc xc], oc, xc + 1)

/-- The `for obx_config in obx_fields` loop of `_build_obr_section` (lines
200–225): resolve each attribute, apply the emission step, thread the
counters and accumulate the segments in order. -/
def obx_fields_loop (secs : List (String × List FieldConfig)) (sec : String) (d : Json) :
    List FieldConfig → Nat → Nat → Except PyExc (List Seg)
  | [], _, _ => .ok []
  | fc :: rest, oc, xc => do
      let v ← resolve_obx_value sec d fc
      let (s1, oc1, xc1) ← obx_field_step secs fc v oc xc
      let s2 ← obx_fields_loop secs sec d rest oc1 xc1
      .ok (s1 ++ s2)

/-- `_build_obr_section` (lines 182–227): `segments['OBR']` raises `KeyError`
when the configuration has no OBR rows; an unknown section yields no
segments; otherwise one parent OBR line followed by the OBX segments of the
field loop. -/
def build_obr_section (m : Mappings) (sec : String) (d : Json) (oc : Nat) :
    Except PyExc (List Seg) :=
  match lookupA m.segments "OBR" with
  | none => .error .keyError
  | some obrMap =>
      match lookupA obrMap sec with
      | none => .ok []
      | some obr_config => do
          let obxFields := (lookupA m.obr_sections sec).getD []
          let tail ← obx_fields_loop m.obr_sections sec d obxFields oc 1
          .ok (Seg.obr oc obr_config.identifier obr_config.display_name :: tail)

/-! ### `generate_hl7` (lines 272–313) -/

/-- Python `s.startswith('OBR')` (line 304). -/
def strStartsWithOBR (s : String) : Bool := s.data.take 3 == ['O', 'B', 'R']

/-- `len([s for s in obr_segments if s.startswith('OBR')])` (line 304). -/
def count_obr_lines (segs : List Seg) : Nat :=
  (segs.filter (fun s => strStartsWithOBR (render s))).length

/-- The `for obr_section in obr_sections.keys()` loop of `generate_hl7`
(lines 297–304), threading the message-global OBR counter. -/
def obr_sections_loop (m : Mappings) (d : Json) : List String → Nat → Except PyExc (List Seg)
  | [], _ => .ok []
  | sec :: rest, oc => do
      let segs ← build_obr_section m sec d oc
      let oc2 := if segs.isEmpty then oc else oc + count_obr_lines segs
      let restSegs ← obr_sections_loop m d rest oc2
      .ok (segs ++ restSegs)

/-- The assembly of `generate_hl7` (lines 277–309) on the already-normalized
record: build BHS/MSH/PID/PV1/ORC, append the fixed device OBR line, the two
NTE lines, the optional device-type OBX, then every configured OBR section
starting from counter 2, then the BTS trailer.  The second component is the
clock index after the call; an uncaught exception is re-raised (lines
311–313). -/
def generate_segs_core (m : Mappings) (d : Json) (clk : Nat → String) (i : Nat) :
    Except PyExc (List Seg) × Nat :=
  match build_segment m "BHS" d 1 clk i with
  | (.error e, j) => (.error e, j)
  | (.ok s1, j1) =>
  match build_segment m "MSH" d 1 clk j1 with
  | (.error e, j) => (.error e, j)
  | (.ok s2, j2) =>
  match build_segment m "PID" d 1 clk j2 with
  | (.error e, j) => (.error e, j)
  | (.ok s3, j3) =>
  match build_segment m "PV1" d 1 clk j3 with
  | (.error e, j) => (.error e, j)
  | (.ok s4, j4) =>
  match build_segment m "ORC" d 1 clk j4 with
  | (.error e, j) => (.error e, j)
  | (.ok s5, j5) =>
  match get_field_value d "PATIENT_INFO.TREATMENT_ID" with
  | .error e => (.error e, j5)
  | .ok tid =>
  match get_field_value d "PATIENT_INFO.DEVICE_TYPE" with
  | .error e => (.error e, j5)
  | .ok dv =>
  match obr_sections_loop m d (m.obr_sections.map Prod.fst) 2 with
  | .error e => (.error e, j5)
  | .ok obrSegs =>
      (.ok (s1 ++ s2 ++ s3 ++ s4 ++ s5 ++ [Seg.obrFixed] ++
            [Seg.nte1 (orEmptyStr tid), Seg.nte2] ++
            (if pyTruthy dv then [Seg.obxDevice (pyStr dv)] else []) ++
            obrSegs ++ [Seg.bts]), j5)

/-- `generate_hl7` (lines 272–313) at segment granularity: the record is
normalized once (line 276) and the segments are assembled by
`generate_segs_core`. -/
def generate_segs (m : Mappings) (jd : Json) (clk : Nat → String) (i : Nat) :
    Except PyExc (List Seg) × Nat :=
  generate_segs_core m (normalize_json_data jd) clk i

/-- `generate_hl7` as the newline-joined message text (line 309). -/
def generate_hl7 (m : Mappings) (jd : Json) (clk : Nat → String) (i : Nat) :
    Except PyExc String × Nat :=
  match generate_segs m jd clk i with
  | (.ok segs, j) => (.ok ("\n".intercalate (segs.map render)), j)
  | (.error e, j) => (.error e, j)

/-! ### `DynamicHL7BatchProcessor.process_batch` (lines 323–346) -/

/-- One per-record outcome dict of `process_batch`: sequence number, status,
HL7 message (success only), error text (error only), and an
`isoformat` timestamp. -/
structure Outcome where
  sequence : Nat
  status : String
  hl7_message : Option String
  errorText : Option String
  timestamp : String
deriving DecidableEq, Repr

/-- The enumeration loop of `process_batch`, threading the 1-based sequence
number, the message-clock index and the iso-clock index. -/
def process_batch_from (m : Mappings) (clk isoClk : Nat → String) :
    List Json → Nat → Nat → Nat → List Outcome
  | [], _, _, _ => []
  | jd :: rest, s, i, j =>
      match generate_hl7 m jd clk i with
      | (.ok msg, i2) =>
          ⟨s, "success", some msg, none, isoClk j⟩ ::
            process_batch_from m clk isoClk rest (s + 1) i2 (j + 1)
      | (.error e, i2) =>
          ⟨s, "error", none, some (pyExcText e), isoClk j⟩ ::
            process_batch_from m clk isoClk rest (s + 1) i2 (j + 1)

/-- `process_batch` (lines 323–346): every record yields exactly one outcome,
in order, starting at sequence number 1; a failed `generate_hl7` is caught
and converted to an error outcome. -/
def process_batch (m : Mappings) (datas : List Json) (clk isoClk : Nat → String) :
    List Outcome :=
  process_batch_from m clk isoClk datas 1 0 0

/-! ### Observers used in the statements below -/

/-- Whether a segment is a child (OBX) observation line. -/
def isObxSeg : Seg → Bool
  | .obx _ _ _ _ _ _ _ => true
  | _ => false

/-- Whether every segment of a list is a child (OBX) line. -/
def isObxList (l : List Seg) : Bool := l.all isObxSeg

/-- The parent (OBR) set-id counters of a segment list, in emission order
(the fixed device OBR line carries the literal counter 1). -/
def obrIdsOf (l : List Seg) : List Nat :=
  l.filterMap (fun s =>
    match s with
    | .obrFixed => some 1
    | .obr c _ _ => some c
    | _ => none)

/-- The current-time timestamp strings carried by one segment: the
batch-header samples one, the header two, the order-control one; no other
segment of this generator interpolates `_get_timestamp()`. -/
def segNowTokens : Seg → List String
  | .bhs ts _ _ => [ts]
  | .msh ts1 ts2 _ => [ts1, ts2]
  | .orc _ ts => [ts]
  | _ => []

/-- All current-time timestamp strings of a message, in emission order. -/
def nowTokens (l : List Seg) : List String := (l.map segNowTokens).flatten

/-- Whether `tok` occurs at the start of `s` (character lists). -/
def startsWithTok : List Char → List Char → Bool
  | [], _ => true
  | _ :: _, [] => false
  | a :: as, b :: bs => a == b && startsWithTok as bs

/-- Whether `tok` occurs contiguously anywhere in `s` (character lists). -/
def containsTok (tok : List Char) : List Char → Bool
  | [] => tok.isEmpty
  | c :: cs => startsWithTok tok (c :: cs) || containsTok tok cs

/-- The error component of an `Except` result. -/
def exErr {α : Type} : Except PyExc α → Option PyExc
  | .error e => some e
  | .ok _ => none

/-- Two resolution results are truthiness-equivalent when they are equal, or
both succeed with falsy values (so they render the same identifier tokens). -/
def truthyEquiv (r r2 : Except PyExc Json) : Prop :=
  r = r2 ∨ ∃ v v2, r = .ok v ∧ r2 = .ok v2 ∧ pyTruthy v = false ∧ pyTruthy v2 = false

/-! ### Concrete test fixtures used by the theorems -/

/-- A constant wall clock: every sample returns the same formatted string. -/
def clkConst : Nat → String := fun _ => "20250101120000"

/-- A ticking wall clock: consecutive samples return distinct strings. -/
def clkCount : Nat → String := fun n => toString n

/-- An iso-format wall clock with visible sample indices. -/
def isoClkIdx : Nat → String := fun n => "ISO" ++ toString n

/-- The configuration row of the spec's PID example: segment `PID`,
attribute `Clinic Patient ID`, sequence 1, identifier `CPID`. -/
def c5row : Row := [("SEGMENT", "PID"), ("JSON_ATTRIBUTE", "Clinic Patient ID"),
  ("IDENTIFIER", "CPID"), ("DISPLAY_NAME", "Clinic Patient ID"), ("DATA_TYPE", "ST"),
  ("SEQUENCE", "1")]

/-- The compiled configuration of the PID example (empty on a compile error,
which the theorems rule out by also asserting the `.ok` equation). -/
def c5mapping : Mappings :=
  match build_dynamic_mappings [c5row] with
  | .ok m => m
  | .error _ => ⟨[], [], [], []⟩

/-- The record of the PID example: `{"PATIENT_INFO": {"CLINIC_PATIENT_ID": "9820609"}}`. -/
def c5record : Json :=
  .obj (jobj [("PATIENT_INFO", .obj (jobj [("CLINIC_PATIENT_ID", .str "9820609")]))])

/-- The segments generated for the PID example under the constant clock. -/
def c5segs : List Seg :=
  [Seg.bhs "20250101120000" "Normal" "",
   Seg.msh "20250101120000" "20250101120000" "2.5",
   Seg.pid 1 ["9820609^^^Clinic_Patient_ID"] "",
   Seg.pv1 1 "XYZClinic",
   Seg.orc "" "20250101120000",
   Seg.obrFixed,
   Seg.nte1 "",
   Seg.nte2,
   Seg.bts]

/-- The segments generated for the PID example under the ticking clock:
the header carries two distinct timestamp samples. -/
def c2segs : List Seg :=
  [Seg.bhs "0" "Normal" "",
   Seg.msh "1" "2" "2.5",
   Seg.pid 1 ["9820609^^^Clinic_Patient_ID"] "",
   Seg.pv1 1 "XYZClinic",
   Seg.orc "" "3",
   Seg.obrFixed,
   Seg.nte1 "",
   Seg.nte2,
   Seg.bts]

/-- OBR row binding the `ACTUAL_THERAPY` section. -/
def c1obrRow : Row := [("SEGMENT", "OBR"), ("JSON_ATTRIBUTE", "Actual Therapy"),
  ("IDENTIFIER", "ATH"), ("DISPLAY_NAME", "Actual Therapy"), ("DATA_TYPE", ""),
  ("SEQUENCE", "1")]

/-- OBX row for the group-bound attribute itself (child field 1 of 3). -/
def c1boundRow : Row := [("SEGMENT", "OBX"), ("CHILD_OBR", "ACTUAL_THERAPY"),
  ("JSON_ATTRIBUTE", "Actual Therapy"), ("IDENTIFIER", "ATH"),
  ("DISPLAY_NAME", "Actual Therapy"), ("DATA_TYPE", "ST"), ("SEQUENCE", "1")]

/-- OBX row for the nested `Fill Volume` attribute (child field 2 of 3). -/
def c1fvRow : Row := [("SEGMENT", "OBX"), ("CHILD_OBR", "ACTUAL_THERAPY"),
  ("JSON_ATTRIBUTE", "Fill Volume"), ("IDENTIFIER", "FV"),
  ("DISPLAY_NAME", "Fill Volume"), ("DATA_TYPE", "NM"), ("SEQUENCE", "2"),
  ("UNIT", "ml")]

/-- OBX row for the nested `Dwell Time` attribute (child field 3 of 3). -/
def c1dwRow : Row := [("SEGMENT", "OBX"), ("CHILD_OBR", "ACTUAL_THERAPY"),
  ("JSON_ATTRIBUTE", "Dwell Time"), ("IDENTIFIER", "DW"),
  ("DISPLAY_NAME", "Dwell Time"), ("DATA_TYPE", "NM"), ("SEQUENCE", "3")]

/-- A configuration with one PID row and one observation group
(`ACTUAL_THERAPY`) holding three child fields. -/
def c1rows : List Row := [c5row, c1obrRow, c1boundRow, c1fvRow, c1dwRow]

/-- The compiled group configuration (empty on a compile error, which the
theorems rule out by also asserting the `.ok` equation). -/
def c1map : Mappings :=
  match build_dynamic_mappings c1rows with
  | .ok m => m
  | .error _ => ⟨[], [], [], []⟩

/-- The same configuration before the sorting phase (empty on a compile
error, which the theorems rule out by also asserting the `.ok` equation). -/
def c1raw : Mappings :=
  match buildRawMappings c1rows with
  | .ok m => m
  | .error _ => ⟨[], [], [], []⟩

/-- One therapy-cycle sub-record with two nested cycle attributes. -/
def c1cyc (fv dw : Int) : Json :=
  .obj (jobj [("CYCLEATTRIBUTES",
    .obj (jobj [("FILL_VOLUME", .int fv), ("DWELL_TIME", .int dw)]))])

/-- A record whose group-bound attribute holds a 2-element sequence of
therapy-cycle sub-records. -/
def c1record : Json := .obj (jobj [
  ("PATIENT_INFO", .obj (jobj [("CLINIC_PATIENT_ID", .str "9820609")])),
  ("ACTUAL_THERAPY", .list (jlist [c1cyc 100 600, c1cyc 110 610]))])

/-- The segments emitted for the `ACTUAL_THERAPY` group of `c1record`:
one parent line (counter 2) and two child lines per cycle, the second cycle
referencing parent counter 3 for which no parent line exists. -/
def c1section : List Seg :=
  [Seg.obr 2 "ATH" "Actual Therapy",
   Seg.obx 1 "NM" "FV" "Fill Volume" 2 "100" "ml",
   Seg.obx 2 "NM" "DW" "Dwell Time" 2 "600" "",
   Seg.obx 1 "NM" "FV" "Fill Volume" 3 "110" "ml",
   Seg.obx 2 "NM" "DW" "Dwell Time" 3 "610" ""]

/-- The whole message generated from `c1record` under the constant clock. -/
def c1full : List Seg :=
  [Seg.bhs "20250101120000" "Normal" "",
   Seg.msh "20250101120000" "20250101120000" "2.5",
   Seg.pid 1 ["9820609^^^Clinic_Patient_ID"] "",
   Seg.pv1 1 "XYZClinic",
   Seg.orc "" "20250101120000",
   Seg.obrFixed,
   Seg.nte1 "",
   Seg.nte2] ++ c1section ++ [Seg.bts]

/-- The record that exposes the projection hole of `_get_field_value`:
`{"A": [{"B": 1}, 2]}`. -/
def c6record : Json :=
  .obj (jobj [("A", .list (jlist [.obj (jobj [("B", .int 1)]), .int 2]))])

/-- A configuration row whose sequence cell is non-empty but not an integer. -/
def c4badRow : Row := [("SEGMENT", "PID"), ("JSON_ATTRIBUTE", "Clinic Patient ID"),
  ("IDENTIFIER", "CPID"), ("DISPLAY_NAME", "Clinic Patient ID"), ("DATA_TYPE", "ST"),
  ("SEQUENCE", "abc")]

/-- A configuration row whose sequence column is absent altogether. -/
def c4noSeqRow : Row := [("SEGMENT", "PID"), ("JSON_ATTRIBUTE", "Clinic Patient ID"),
  ("IDENTIFIER", "CPID"), ("DISPLAY_NAME", "Clinic Patient ID"), ("DATA_TYPE", "ST")]

/-- A configuration row whose sequence cell is empty. -/
def c4emptyRow : Row := [("SEGMENT", "PID"), ("JSON_ATTRIBUTE", "Clinic Patient ID"),
  ("IDENTIFIER", "CPID"), ("DISPLAY_NAME", "Clinic Patient ID"), ("DATA_TYPE", "ST"),
  ("SEQUENCE", "")]

/-- A record on which encoding fails: resolving `PATIENT_INFO.<attr>` hits a
projected list whose second element is not a dict. -/
def c7bad : Json := .obj (jobj [("PATIENT_INFO",
  .list (jlist [.obj (jobj [("CLINIC_PATIENT_ID", .str "X")]), .int 0]))])

/-- A record holding the empty string for the PID identifier attribute. -/
def c10emptyRec : Json :=
  .obj (jobj [("PATIENT_INFO", .obj (jobj [("CLINIC_PATIENT_ID", .str "")]))])

/-- A record holding the integer 0 for the PID identifier attribute. -/
def c10zeroRec : Json :=
  .obj (jobj [("PATIENT_INFO", .obj (jobj [("CLINIC_PATIENT_ID", .int 0)]))])

/-- A record with the PID identifier attribute missing altogether. -/
def c10missingRec : Json := .obj (jobj [("PATIENT_INFO", .obj (jobj []))])

/-! ## Helper lemmas about `Char.toUpper` -/

/-- Unfolding `Char.ofNatAux`. -/
theorem charToNat_ofNatAux (n : Nat) (h : n.isValidChar) : (Char.ofNatAux n h).toNat = n := rfl

/-- `Char.toUpper` on a basic-latin lowercase letter subtracts 32. -/
theorem toUpper_toNat (c : Char) (h : c.toNat ≥ 97 ∧ c.toNat ≤ 122) :
    (Char.toUpper c).toNat = c.toNat - 32 := by
  unfold Char.toUpper
  rw [if_pos h, Char.ofNat, dif_pos (Or.inl (by omega))]
  rw [charToNat_ofNatAux]

/-- `Char.toUpper` is the identity off the lowercase range. -/
theorem toUpper_eq_self (c : Char) (h : ¬(c.toNat ≥ 97 ∧ c.toNat ≤ 122)) :
    Char.toUpper c = c := by
  unfold Char.toUpper
  rw [if_neg h]

/-- `Char.toUpper` is idempotent. -/
theorem toUpper_idem (c : Char) : c.toUpper.toUpper = c.toUpper := by
  by_cases h : c.toNat ≥ 97 ∧ c.toNat ≤ 122
  · have h2 := toUpper_toNat c h
    apply toUpper_eq_self
    omega
  · rw [toUpper_eq_self c h, toUpper_eq_self c h]

/-- `Char.toUpper` never produces a space or a hyphen from another character. -/
theorem toUpper_ne_special (c : Char) (hc : c ≠ ' ' ∧ c ≠ '-') :
    c.toUpper ≠ ' ' ∧ c.toUpper ≠ '-' := by
  by_cases h : c.toNat ≥ 97 ∧ c.toNat ≤ 122
  · have h2 := toUpper_toNat c h
    constructor <;> intro he <;> rw [he] at h2
    · rw [show (' ' : Char).toNat = 32 from rfl] at h2; omega
    · rw [show ('-' : Char).toNat = 45 from rfl] at h2; omega
  · rw [toUpper_eq_self c h]; exact hc

/-- Characterwise normalization is idempotent. -/
theorem normChar_idem (c : Char) : normChar (normChar c) = normChar c := by
  unfold normChar
  have hrepl : (if c = ' ' ∨ c = '-' then '_' else c) ≠ ' ' ∧
      (if c = ' ' ∨ c = '-' then '_' else c) ≠ '-' := by
    by_cases h : c = ' ' ∨ c = '-'
    · rw [if_pos h]; exact ⟨by decide, by decide⟩
    · rw [if_neg h]; push_neg at h; exact h
  have hu := toUpper_ne_special _ hrepl
  rw [if_neg (by intro h; rcases h with h | h; exact hu.1 h; exact hu.2 h)]
  exact toUpper_idem _

/-- C9: key normalization (uppercase; spaces and hyphens replaced by
underscore) is idempotent: normalizing an already-normalized record key
yields the same key. -/
theorem c9_normalize_idempotent (s : String) :
    normalizeKey (normalizeKey s) = normalizeKey s := by
  unfold normalizeKey
  rw [show (String.mk (s.data.map normChar)).data = s.data.map normChar from rfl,
    List.map_map]
  exact congrArg String.mk (List.map_congr_left (fun a _ => normChar_idem a))

/-- C6: the claim says path resolution is total and never raises, but
`_get_field_value` omits `AttributeError` from its except clause: on the
record `{"A": [{"B": 1}, 2]}` with path `"A.B"`, the projection
`[item.get('B') for item in ...]` calls `.get` on the integer 2 and the
uncaught `AttributeError` escapes, so resolution (and hence encoding) can
fail on a well-formed record tree. -/
theorem c6_resolution_raises :
    get_field_value c6record "A.B" = .error .attributeError := rfl

/-- C5: compiling the configuration row
`{segment=PID, attribute="Clinic Patient ID", sequence=1, identifier=CPID}`
and encoding `{"PATIENT_INFO": {"CLINIC_PATIENT_ID": "9820609"}}` yields a
message whose segments include a PID line, and that line's rendering starts
with `PID` and contains the token `9820609^^^Clinic_Patient_ID`. -/
theorem c5_pid_token :
    build_dynamic_mappings [c5row] = .ok c5mapping ∧
    generate_segs c5mapping c5record clkConst 0 = (.ok c5segs, 4) ∧
    Seg.pid 1 ["9820609^^^Clinic_Patient_ID"] "" ∈ c5segs ∧
    startsWithTok "PID".data
      (render (Seg.pid 1 ["9820609^^^Clinic_Patient_ID"] "")).data = true ∧
    containsTok "9820609^^^Clinic_Patient_ID".data
      (render (Seg.pid 1 ["9820609^^^Clinic_Patient_ID"] "")).data = true := by
  refine ⟨rfl, rfl, ?_, ?_, ?_⟩ <;> decide

/-- C4 counterexample: configuration compilation DOES fail on a sequence cell
that is non-empty but unparseable (`int("abc")` raises `ValueError`), and on
a row schema lacking the sequence column (`row['SEQUENCE']` raises
`KeyError`); the claim's "does not fail; assigns 999" is false for those two
cases. -/
theorem c4_counterexample :
    build_dynamic_mappings [c4badRow] = .error .valueError ∧
    build_dynamic_mappings [c4noSeqRow] = .error .keyError ∧
    pyInt "abc" = .error .valueError := ⟨rfl, rfl, rfl⟩

/-- C4 (amended): the 999 default applies exactly when the sequence cell is
present but empty; compilation of such a row succeeds with sequence 999.  A
row without the sequence column fails with `KeyError`, and a non-empty
unparseable cell goes through `int(...)` (see the counterexample). -/
theorem c4_amended :
    parseSeqCell "" = .ok 999 ∧
    (∀ s : String, s ≠ "" → parseSeqCell s = pyInt s) ∧
    (∀ row : Row, rowFind row "SEQUENCE" = none → ∀ r, compileRow row ≠ .ok r) ∧
    (∀ row seg ja co fc, compileRow row = .ok (seg, ja, co, fc) →
       rowFind row "SEQUENCE" = some "" → fc.sequence = 999) ∧
    (compileRow c4emptyRow).map (fun r => r.2.2.2.sequence) = .ok 999 := by
  refine ⟨rfl, ?_, ?_, ?_, rfl⟩
  · intro s hs
    unfold parseSeqCell
    rw [if_pos hs]
  · intro row h r hcontra
    unfold compileRow at hcontra
    cases h1 : rowItem row "SEGMENT" <;> rw [h1] at hcontra <;> simp [Bind.bind, Except.bind] at hcontra
    cases h2 : rowItem row "JSON_ATTRIBUTE" <;> rw [h2] at hcontra <;> simp at hcontra
    cases h3 : rowItem row "IDENTIFIER" <;> rw [h3] at hcontra <;> simp at hcontra
    cases h4 : rowItem row "DISPLAY_NAME" <;> rw [h4] at hcontra <;> simp at hcontra
    cases h5 : rowItem row "DATA_TYPE" <;> rw [h5] at hcontra <;> simp at hcontra
    have : rowItem row "SEQUENCE" = .error .keyError := by
      unfold rowItem
      rw [h]
    rw [this] at hcontra
    simp at hcontra
  · intro row seg ja co fc hok hseq
    unfold compileRow at hok
    have hs : rowItem row "SEQUENCE" = .ok "" := by
      unfold rowItem
      rw [hseq]
    cases h1 : rowItem row "SEGMENT" <;> rw [h1] at hok <;> simp [Bind.bind, Except.bind] at hok
    cases h2 : rowItem row "JSON_ATTRIBUTE" <;> rw [h2] at hok <;> simp at hok
    cases h3 : rowItem row "IDENTIFIER" <;> rw [h3] at hok <;> simp at hok
    cases h4 : rowItem row "DISPLAY_NAME" <;> rw [h4] at hok <;> simp at hok
    cases h5 : rowItem row "DATA_TYPE" <;> rw [h5] at hok <;> simp at hok
    rw [hs] at hok
    simp [parseSeqCell, pure, Except.pure] at hok
    rw [← hok.2.2.2]

/-! ## C10: identifier presence by truthiness -/

/-- C10: in the patient-identification segment, presence of an identifier is
tested by Python truthiness, so `""` and `0` resolve to falsy values and
produce no identifier token, exactly as if the attribute were missing: the
identifier-field accumulation depends only on the truthiness-equivalence
class of each attribute's resolution. -/
theorem c10_truthiness :
    pyTruthy (Json.str "") = false ∧ pyTruthy (Json.int 0) = false ∧
    ∀ (pidMap : List (String × FieldConfig)) (d d2 : Json),
      (∀ p ∈ pidMap,
        truthyEquiv (get_field_value d ("PATIENT_INFO." ++ p.2.json_attribute))
          (get_field_value d2 ("PATIENT_INFO." ++ p.2.json_attribute))) →
      pid_id_fields d pidMap = pid_id_fields d2 pidMap := by
  refine ⟨rfl, rfl, ?_⟩
  intro pidMap
  induction pidMap with
  | nil => intro d d2 _; rfl
  | cons p rest ih =>
      intro d d2 h
      obtain ⟨k, fc⟩ := p
      have hp := h (k, fc) (List.mem_cons_self _ _)
      have hrest := ih d d2 (fun q hq => h q (List.mem_cons_of_mem _ hq))
      unfold pid_id_fields
      rcases hp with heq | ⟨v, v2, hv, hv2, hf, hf2⟩
      · rw [heq]
        cases hr : get_field_value d2 ("PATIENT_INFO." ++ fc.json_attribute) <;>
          simp [Bind.bind, Except.bind, hrest]
      · rw [hv, hv2]
        simp [Bind.bind, Except.bind, hf, hf2, hrest]

/-- Witness for C10: with the compiled PID configuration of the example,
a record holding `""` (resp. `0`) for the identifier attribute produces the
same identifier fields as the record missing the attribute — none at all. -/
theorem c10_witness :
    pid_id_fields c10emptyRec ((lookupA c5mapping.segments "PID").getD []) =
      pid_id_fields c10missingRec ((lookupA c5mapping.segments "PID").getD []) ∧
    pid_id_fields c10zeroRec ((lookupA c5mapping.segments "PID").getD []) =
      pid_id_fields c10missingRec ((lookupA c5mapping.segments "PID").getD []) ∧
    pid_id_fields c10emptyRec ((lookupA c5mapping.segments "PID").getD []) = .ok [] := by
  refine ⟨?_, ?_, rfl⟩
  · refine c10_truthiness.2.2 _ c10emptyRec c10missingRec ?_
    intro p hp
    have hl : (lookupA c5mapping.segments "PID").getD [] = [("CLINIC_PATIENT_ID",
        { identifier := "CPID", display_name := "Clinic Patient ID", data_type := "ST",
          unit := "", sequence := 1, json_attribute := "CLINIC_PATIENT_ID",
          child_obr := "", segment_id := "", hl7_key := "" })] := rfl
    rw [hl] at hp
    have hp2 := List.mem_singleton.1 hp
    subst hp2
    exact Or.inr ⟨.str "", .null, rfl, rfl, rfl, rfl⟩
  · refine c10_truthiness.2.2 _ c10zeroRec c10missingRec ?_
    intro p hp
    have hl : (lookupA c5mapping.segments "PID").getD [] = [("CLINIC_PATIENT_ID",
        { identifier := "CPID", display_name := "Clinic Patient ID", data_type := "ST",
          unit := "", sequence := 1, json_attribute := "CLINIC_PATIENT_ID",
          child_obr := "", segment_id := "", hl7_key := "" })] := rfl
    rw [hl] at hp
    have hp2 := List.mem_singleton.1 hp
    subst hp2
    exact Or.inr ⟨.int 0, .null, rfl, rfl, rfl, rfl⟩

/-! ## C8: stable sorting of compiled field lists -/

/-- Membership through stable insertion. -/
theorem mem_insBySeq {α : Type} (key : α → Int) (a x : α) (l : List α) :
    x ∈ insBySeq key a l ↔ x = a ∨ x ∈ l := by
  induction l with
  | nil => simp [insBySeq]
  | cons b bs ih =>
      by_cases h : key b ≤ key a <;> simp [insBySeq, h, ih] <;> tauto

/-- Stable insertion preserves sortedness by the key. -/
theorem pairwise_insBySeq {α : Type} (key : α → Int) (a : α) (l : List α)
    (h : l.Pairwise (fun x y => key x ≤ key y)) :
    (insBySeq key a l).Pairwise (fun x y => key x ≤ key y) := by
  induction l with
  | nil => simp [insBySeq]
  | cons b bs ih =>
      rw [List.pairwise_cons] at h
      obtain ⟨hb, hbs⟩ := h
      by_cases hc : key b ≤ key a
      · rw [show insBySeq key a (b :: bs) = b :: insBySeq key a bs from by
          simp [insBySeq, hc]]
        refine List.pairwise_cons.2 ⟨?_, ih hbs⟩
        intro y hy
        rcases (mem_insBySeq key a y bs).1 hy with rfl | hy2
        · exact hc
        · exact hb y hy2
      · rw [show insBySeq key a (b :: bs) = a :: b :: bs from by
          simp [insBySeq, hc]]
        refine List.pairwise_cons.2 ⟨?_, List.pairwise_cons.2 ⟨hb, hbs⟩⟩
        intro y hy
        rcases List.mem_cons.1 hy with rfl | hy2
        · exact le_of_lt (lt_of_not_le hc)
        · exact le_trans (le_of_lt (lt_of_not_le hc)) (hb y hy2)

/-- The stable sort is sorted by the key. -/
theorem stable_sort_pairwise {α : Type} (key : α → Int) (l : List α) :
    (stable_sort_by_seq key l).Pairwise (fun x y => key x ≤ key y) := by
  have haux : ∀ (l2 : List α) (acc : List α),
      acc.Pairwise (fun x y => key x ≤ key y) →
      (l2.foldl (fun acc a => insBySeq key a acc) acc).Pairwise
        (fun x y => key x ≤ key y) := by
    intro l2
    induction l2 with
    | nil => intro acc h; simpa using h
    | cons a as ih =>
        intro acc h
        rw [List.foldl_cons]
        exact ih _ (pairwise_insBySeq key a acc h)
  exact haux l [] (by simp)

/-- Inserting into a sorted list appends the new element at the end of its
equal-key block: the key-`n` sublist gains `a` at its end when `key a = n`,
and is unchanged otherwise. -/
theorem filter_insBySeq {α : Type} (key : α → Int) (a : α) (l : List α) (n : Int)
    (h : l.Pairwise (fun x y => key x ≤ key y)) :
    (insBySeq key a l).filter (fun x => key x == n) =
      l.filter (fun x => key x == n) ++ (if key a == n then [a] else []) := by
  induction l with
  | nil =>
      by_cases han : key a == n <;> simp [insBySeq, List.filter, han]
  | cons b bs ih =>
      rw [List.pairwise_cons] at h
      obtain ⟨hb, hbs⟩ := h
      by_cases hc : key b ≤ key a
      · rw [show insBySeq key a (b :: bs) = b :: insBySeq key a bs from by
          simp [insBySeq, hc]]
        by_cases hbn : key b == n <;>
          simp [List.filter_cons, hbn, ih hbs]
      · rw [show insBySeq key a (b :: bs) = a :: b :: bs from by
          simp [insBySeq, hc]]
        by_cases han : key a == n
        · have hnil : (b :: bs).filter (fun x => key x == n) = [] := by
            rw [List.filter_eq_nil_iff]
            intro x hx
            have hbx : key b ≤ key x := by
              rcases List.mem_cons.1 hx with rfl | hx2
              · exact le_refl _
              · exact hb x hx2
            have hab : key a < key b := lt_of_not_le hc
            have hn : key a = n := by simpa using han
            simp only [beq_iff_eq]
            omega
          simp [List.filter_cons, han, hnil]
        · simp [List.filter_cons, han]

/-- The key-`n` sublist of the stable sort equals the key-`n` sublist of the
input: equal keys keep their original arrival order. -/
theorem stable_sort_filter {α : Type} (key : α → Int) (l : List α) (n : Int) :
    (stable_sort_by_seq key l).filter (fun x => key x == n) =
      l.filter (fun x => key x == n) := by
  have haux : ∀ (l2 : List α) (acc : List α),
      acc.Pairwise (fun x y => key x ≤ key y) →
      (l2.foldl (fun acc a => insBySeq key a acc) acc).filter (fun x => key x == n) =
        acc.filter (fun x => key x == n) ++ l2.filter (fun x => key x == n) := by
    intro l2
    induction l2 with
    | nil => intro acc h; simp
    | cons a as ih =>
        intro acc h
        rw [List.foldl_cons, ih _ (pairwise_insBySeq key a acc h),
          filter_insBySeq key a acc n h, List.filter_cons]
        by_cases han : key a == n <;> simp [han, List.append_assoc]
  simpa using haux l [] (by simp)

/-- Looking a key up after mapping the values of an association list. -/
theorem lookupA_map_snd {α β : Type} (f : α → β) (l : List (String × α)) (k : String) :
    lookupA (l.map (fun p => (p.1, f p.2))) k = (lookupA l k).map f := by
  induction l with
  | nil => rfl
  | cons p ps ih =>
      by_cases h : p.1 == k <;>
        simp [lookupA, List.find?_cons, h] at * <;> simp [ih]

/-- C8: for every compiled configuration, each segment's field mapping and
each group's field list is sorted ascending by sequence number, and the
key-`n` sublist of each sorted list equals that of the pre-sort accumulation
(which lists matching rows in original configuration order): equal sequence
numbers keep their original row order. -/
theorem c8_sorted_stable (rows : List Row) (m0 : Mappings)
    (h0 : buildRawMappings rows = .ok m0) :
    build_dynamic_mappings rows = .ok (sortMappings m0) ∧
    (∀ p ∈ (sortMappings m0).segments,
       p.2.Pairwise (fun x y => x.2.sequence ≤ y.2.sequence)) ∧
    (∀ p ∈ (sortMappings m0).obr_sections,
       p.2.Pairwise (fun x y => x.sequence ≤ y.sequence)) ∧
    (∀ (k : String) (n : Int),
       ((lookupA (sortMappings m0).segments k).getD []).filter
           (fun q => q.2.sequence == n) =
         ((lookupA m0.segments k).getD []).filter (fun q => q.2.sequence == n)) ∧
    (∀ (k : String) (n : Int),
       ((lookupA (sortMappings m0).obr_sections k).getD []).filter
           (fun fc => fc.sequence == n) =
         ((lookupA m0.obr_sections k).getD []).filter (fun fc => fc.sequence == n)) := by
  refine ⟨?_, ?_, ?_, ?_, ?_⟩
  · unfold build_dynamic_mappings
    rw [h0]
    rfl
  · intro p hp
    unfold sortMappings at hp
    simp only [List.mem_map] at hp
    obtain ⟨q, _, rfl⟩ := hp
    exact stable_sort_pairwise _ _
  · intro p hp
    unfold sortMappings at hp
    simp only [List.mem_map] at hp
    obtain ⟨q, _, rfl⟩ := hp
    exact stable_sort_pairwise _ _
  · intro k n
    show ((lookupA (m0.segments.map
        (fun p => (p.1, stable_sort_by_seq (fun q => q.2.sequence) p.2))) k).getD
          []).filter (fun q => q.2.sequence == n) = _
    rw [lookupA_map_snd]
    cases hh : lookupA m0.segments k
    · simp [hh]
    · simp [hh, stable_sort_filter]
  · intro k n
    show ((lookupA (m0.obr_sections.map
        (fun p => (p.1, stable_sort_by_seq (fun fc => fc.sequence) p.2))) k).getD
          []).filter (fun fc => fc.sequence == n) = _
    rw [lookupA_map_snd]
    cases hh : lookupA m0.obr_sections k
    · simp [hh]
    · simp [hh, stable_sort_filter]

/-- Witness for C8 at the group configuration: the compiled config is the
sorted raw accumulation, and the sequence-2 sublist of the sorted
`ACTUAL_THERAPY` group equals that of the raw accumulation. -/
theorem c8_witness :
    build_dynamic_mappings c1rows = .ok (sortMappings c1raw) ∧
    ((lookupA (sortMappings c1raw).obr_sections "ACTUAL_THERAPY").getD []).filter
        (fun fc => fc.sequence == 2) =
      ((lookupA c1raw.obr_sections "ACTUAL_THERAPY").getD []).filter
        (fun fc => fc.sequence == 2) :=
  ⟨(c8_sorted_stable c1rows c1raw rfl).1,
   (c8_sorted_stable c1rows c1raw rfl).2.2.2.2 "ACTUAL_THERAPY" 2⟩

/-! ## Shape lemmas about OBR-section output -/

/-- A configured parent line renders with the `OBR` tag. -/
theorem strOBR_of_obr (c : Nat) (i d : String) :
    strStartsWithOBR (render (Seg.obr c i d)) = true := by
  unfold render strStartsWithOBR
  obtain ⟨l⟩ := (toString c ++ "|||" ++ i ++ "^" ++ d ++ "|||202510151234" ++ toString (23 + c))
  rfl

/-- A child line renders with the `OBX` tag, not `OBR`. -/
theorem strOBR_of_obx (a : Nat) (b c d : String) (e : Nat) (f g : String) :
    strStartsWithOBR (render (Seg.obx a b c d e f g)) = false := by
  unfold render strStartsWithOBR
  obtain ⟨l⟩ := (toString a ++ "|" ++ b ++ "|" ++ c ++ "^" ++ d ++ "|" ++ toString e ++
    "|" ++ f ++ (if g ≠ "" then "|" ++ g else "") ++ "|||||F")
  rfl

/-- `isObxList` over an append. -/
theorem isObxList_append (a b : List Seg) :
    isObxList (a ++ b) = (isObxList a && isObxList b) := by
  simp [isObxList, List.all_append]

/-- An all-OBX segment list contributes no OBR-tagged lines. -/
theorem count_obr_lines_obxList (l : List Seg) (h : isObxList l = true) :
    count_obr_lines l = 0 := by
  unfold count_obr_lines
  rw [List.length_eq_zero, List.filter_eq_nil_iff]
  intro s hs
  have hx : isObxSeg s = true := by
    have := (List.all_eq_true.1 h) s hs
    simpa using this
  cases s <;> simp [isObxSeg] at hx
  simp [strOBR_of_obx]

/-- One parent line followed by OBX lines counts as exactly one OBR line. -/
theorem count_obr_lines_section (c : Nat) (i d : String) (tail : List Seg)
    (h : isObxList tail = true) :
    count_obr_lines (Seg.obr c i d :: tail) = 1 := by
  unfold count_obr_lines
  rw [List.filter_cons_of_pos (by simp [strOBR_of_obr])]
  have := count_obr_lines_obxList tail h
  unfold count_obr_lines at this
  simp [this]

/-- `obrIdsOf` over an append. -/
theorem obrIdsOf_append (a b : List Seg) :
    obrIdsOf (a ++ b) = obrIdsOf a ++ obrIdsOf b := by
  simp [obrIdsOf, List.filterMap_append]

/-- An all-OBX segment list carries no parent counters. -/
theorem obrIdsOf_obxList (l : List Seg) (h : isObxList l = true) :
    obrIdsOf l = [] := by
  unfold obrIdsOf
  rw [List.filterMap_eq_nil_iff]
  intro s hs
  have hx : isObxSeg s = true := by
    have := (List.all_eq_true.1 h) s hs
    simpa using this
  cases s <;> simp [isObxSeg] at hx
  rfl

/-- `nowTokens` over an append. -/
theorem nowTokens_append (a b : List Seg) :
    nowTokens (a ++ b) = nowTokens a ++ nowTokens b := by
  simp [nowTokens]

/-- An all-OBX segment list carries no current-time tokens. -/
theorem nowTokens_obxList (l : List Seg) (h : isObxList l = true) :
    nowTokens l = [] := by
  unfold nowTokens
  rw [List.flatten_eq_nil_iff]
  intro s hs
  rw [List.mem_map] at hs
  obtain ⟨x, hx, rfl⟩ := hs
  have hx2 : isObxSeg x = true := by
    have := (List.all_eq_true.1 h) x hx
    simpa using this
  cases x <;> simp [isObxSeg] at hx2
  rfl

/-- The cycle-attribute loop emits only OBX segments. -/
theorem cycle_attrs_loop_obx (secs : List (String × List FieldConfig)) (child : String)
    (oc : Nat) : ∀ (attrs : JObj) (xc : Nat),
    isObxList (cycle_attrs_loop secs child oc attrs xc).1 = true
  | .nil, xc => by simp [cycle_attrs_loop, isObxList]
  | .cons ak av rest, xc => by
      unfold cycle_attrs_loop
      cases hm : find_matching_config secs child ak with
      | none => exact cycle_attrs_loop_obx secs child oc rest xc
      | some mc =>
          have ih := cycle_attrs_loop_obx secs child oc rest (xc + 1)
          simp only []
          cases heq : cycle_attrs_loop secs child oc rest (xc + 1) with
          | mk s2 xc2 =>
              rw [heq] at ih
              simpa [isObxList, isObxSeg, add_obx_segment] using ih

/-- The nested-record loop emits only OBX segments. -/
theorem process_nested_loop_obx (secs : List (String × List FieldConfig)) (child : String)
    (oc : Nat) : ∀ (nested : JObj) (xc : Nat) (res : List Seg × Nat),
    process_nested_loop secs child oc nested xc = .ok res → isObxList res.1 = true
  | .nil, xc, res => by
      intro h
      simp only [process_nested_loop] at h
      cases h
      simp [isObxList]
  | .cons k v rest, xc, res => by
      intro h
      unfold process_nested_loop at h
      by_cases hk : (k == "CYCLEATTRIBUTES") = true
      · rw [if_pos hk] at h
        cases v with
        | obj attrs =>
            simp only [Bind.bind, Except.bind] at h
            cases heq : cycle_attrs_loop secs child oc attrs xc with
            | mk s1 xc1 =>
                rw [heq] at h
                cases h2 : process_nested_loop secs child oc rest xc1 with
                | error e => rw [h2] at h; exact absurd h (by simp)
                | ok p =>
                    rw [h2] at h
                    obtain ⟨s2, xc2⟩ := p
                    have hres : (s1 ++ s2, xc2) = res := by
                      simpa using h
                    have ihrest := process_nested_loop_obx secs child oc rest xc1 _ h2
                    have hcyc := cycle_attrs_loop_obx secs child oc attrs xc
                    rw [heq] at hcyc
                    rw [← hres]
                    rw [show ((s1 ++ s2, xc2) : List Seg × Nat).1 = s1 ++ s2 from rfl,
                      isObxList_append]
                    simp_all
        | null => exact absurd h (by simp)
        | bool b => exact absurd h (by simp)
        | int n => exact absurd h (by simp)
        | str s => exact absurd h (by simp)
        | list xs => exact absurd h (by simp)
      · rw [if_neg hk] at h
        cases hm : find_matching_config secs child k with
        | none =>
            rw [hm] at h
            exact process_nested_loop_obx secs child oc rest xc res h
        | some mc =>
          rw [hm] at h
          simp only [Bind.bind, Except.bind] at h
          cases h2 : process_nested_loop secs child oc rest (xc + 1) with
          | error e => rw [h2] at h; exact absurd h (by simp)
          | ok p =>
              rw [h2] at h
              obtain ⟨s2, xc2⟩ := p
              have hres : (add_obx_segment mc v oc xc :: s2, xc2) = res := by
                simpa using h
              have ihrest := process_nested_loop_obx secs child oc rest (xc + 1) _ h2
              rw [← hres]
              simpa [isObxList, isObxSeg, add_obx_segment] using ihrest

/-- `_process_nested_obx` emits only OBX segments. -/
theorem process_nested_obx_obx (secs : List (String × List FieldConfig)) (nested : JObj)
    (oc : Nat) (fc : FieldConfig) (xc : Nat) (segs : List Seg)
    (h : process_nested_obx secs nested oc fc xc = .ok segs) :
    isObxList segs = true := by
  unfold process_nested_obx at h
  cases h2 : process_nested_loop secs fc.child_obr oc nested xc with
  | error e => rw [h2] at h; exact absurd h (by simp [Except.map])
  | ok p =>
      rw [h2] at h
      have : p.1 = segs := by simpa [Except.map] using h
      rw [← this]
      exact process_nested_loop_obx secs fc.child_obr oc nested xc p h2

/-- The per-item loop of `_build_obr_section` emits only OBX segments. -/
theorem obx_items_loop_obx (secs : List (String × List FieldConfig)) (fc : FieldConfig) :
    ∀ (items : JList) (oc xc : Nat) (res : List Seg × Nat × Nat),
    obx_items_loop secs fc items oc xc = .ok res → isObxList res.1 = true
  | .nil, oc, xc, res => by
      intro h
      simp only [obx_items_loop] at h
      cases h
      simp [isObxList]
  | .cons item rest, oc, xc, res => by
      intro h
      unfold obx_items_loop at h
      cases item with
      | obj kvs =>
          simp only [Bind.bind, Except.bind] at h
          cases h1 : process_nested_obx secs kvs oc fc xc with
          | error e => rw [h1] at h; exact absurd h (by simp)
          | ok s1 =>
              rw [h1] at h
              cases h2 : obx_items_loop secs fc rest (oc + 1) 1 with
              | error e => rw [h2] at h; exact absurd h (by simp)
              | ok p =>
                  rw [h2] at h
                  obtain ⟨s2, oc2, xc2⟩ := p
                  have hres : (s1 ++ s2, oc2, xc2) = res := by simpa using h
                  have ih := obx_items_loop_obx secs fc rest (oc + 1) 1 _ h2
                  have h1x := process_nested_obx_obx secs kvs oc fc xc s1 h1
                  rw [← hres]
                  rw [show ((s1 ++ s2, oc2, xc2) : List Seg × Nat × Nat).1 = s1 ++ s2 from rfl,
                    isObxList_append]
                  simp_all
      | null =>
          simp only [Bind.bind, Except.bind] at h
          cases h2 : obx_items_loop secs fc rest oc (xc + 1) with
          | error e => rw [h2] at h; exact absurd h (by simp)
          | ok p =>
              rw [h2] at h
              obtain ⟨s2, oc2, xc2⟩ := p
              have hres : (add_obx_segment fc .null oc xc :: s2, oc2, xc2) = res := by
                simpa using h
              have ih := obx_items_loop_obx secs fc rest oc (xc + 1) _ h2
              rw [← hres]
              simpa [isObxList, isObxSeg, add_obx_segment] using ih
      | bool b =>
          simp only [Bind.bind, Except.bind] at h
          cases h2 : obx_items_loop secs fc rest oc (xc + 1) with
          | error e => rw [h2] at h; exact absurd h (by simp)
          | ok p =>
              rw [h2] at h
              obtain ⟨s2, oc2, xc2⟩ := p
              have hres : (add_obx_segment fc (.bool b) oc xc :: s2, oc2, xc2) = res := by
                simpa using h
              have ih := obx_items_loop_obx secs fc rest oc (xc + 1) _ h2
              rw [← hres]
              simpa [isObxList, isObxSeg, add_obx_segment] using ih
      | int n =>
          simp only [Bind.bind, Except.bind] at h
          cases h2 : obx_items_loop secs fc rest oc (xc + 1) with
          | error e => rw [h2] at h; exact absurd h (by simp)
          | ok p =>
              rw [h2] at h
              obtain ⟨s2, oc2, xc2⟩ := p
              have hres : (add_obx_segment fc (.int n) oc xc :: s2, oc2, xc2) = res := by
                simpa using h
              have ih := obx_items_loop_obx secs fc rest oc (xc + 1) _ h2
              rw [← hres]
              simpa [isObxList, isObxSeg, add_obx_segment] using ih
      | str sv =>
          simp only [Bind.bind, Except.bind] at h
          cases h2 : obx_items_loop secs fc rest oc (xc + 1) with
          | error e => rw [h2] at h; exact absurd h (by simp)
          | ok p =>
              rw [h2] at h
              obtain ⟨s2, oc2, xc2⟩ := p
              have hres : (add_obx_segment fc (.str sv) oc xc :: s2, oc2, xc2) = res := by
                simpa using h
              have ih := obx_items_loop_obx secs fc rest oc (xc + 1) _ h2
              rw [← hres]
              simpa [isObxList, isObxSeg, add_obx_segment] using ih
      | list xs =>
          simp only [Bind.bind, Except.bind] at h
          cases h2 : obx_items_loop secs fc rest oc (xc + 1) with
          | error e => rw [h2] at h; exact absurd h (by simp)
          | ok p =>
              rw [h2] at h
              obtain ⟨s2, oc2, xc2⟩ := p
              have hres : (add_obx_segment fc (.list xs) oc xc :: s2, oc2, xc2) = res := by
                simpa using h
              have ih := obx_items_loop_obx secs fc rest oc (xc + 1) _ h2
              rw [← hres]
              simpa [isObxList, isObxSeg, add_obx_segment] using ih

/-- Unfolding lemma: binding a success in `Except`. -/
theorem pe_bind_ok {α β : Type} (a : α) (f : α → Except PyExc β) :
    (Bind.bind (Except.ok a) f : Except PyExc β) = f a := rfl

/-- Unfolding lemma: binding an error in `Except`. -/
theorem pe_bind_err {α β : Type} (e : PyExc) (f : α → Except PyExc β) :
    (Bind.bind (Except.error e) f : Except PyExc β) = Except.error e := rfl

/-- Inversion of one step of the OBX field loop. -/
theorem obx_fields_loop_cons_inv (secs : List (String × List FieldConfig)) (sec : String)
    (d : Json) (fc : FieldConfig) (rest : List FieldConfig) (oc xc : Nat) (segs : List Seg)
    (h : obx_fields_loop secs sec d (fc :: rest) oc xc = .ok segs) :
    ∃ v s1 oc1 xc1 s2, resolve_obx_value sec d fc = .ok v ∧
      obx_field_step secs fc v oc xc = .ok (s1, oc1, xc1) ∧
      obx_fields_loop secs sec d rest oc1 xc1 = .ok s2 ∧ segs = s1 ++ s2 := by
  unfold obx_fields_loop at h
  cases h0 : resolve_obx_value sec d fc with
  | error e => rw [h0, pe_bind_err] at h; exact absurd h (by simp)
  | ok v =>
      rw [h0, pe_bind_ok] at h
      cases h1 : obx_field_step secs fc v oc xc with
      | error e => rw [h1, pe_bind_err] at h; exact absurd h (by simp)
      | ok p =>
          rw [h1, pe_bind_ok] at h
          obtain ⟨s1, oc1, xc1⟩ := p
          simp only [] at h
          cases h2 : obx_fields_loop secs sec d rest oc1 xc1 with
          | error e =>
              rw [h2, pe_bind_err] at h
              exact absurd h (by simp)
          | ok s2 =>
              rw [h2, pe_bind_ok] at h
              simp at h
              exact ⟨v, s1, oc1, xc1, s2, rfl, h1, h2, h.symm⟩

/-- The emission step yields only OBX segments. -/
theorem obx_field_step_obx (secs : List (String × List FieldConfig)) (fc : FieldConfig)
    (v : Json) (oc xc : Nat) (res : List Seg × Nat × Nat)
    (h : obx_field_step secs fc v oc xc = .ok res) : isObxList res.1 = true := by
  unfold obx_field_step at h
  by_cases hn : v.isNull = true
  · rw [if_pos hn] at h
    cases h
    simp [isObxList]
  · rw [if_neg hn] at h
    cases v with
    | list items => exact obx_items_loop_obx secs fc items oc xc res h
    | null => simp [Json.isNull] at hn
    | bool b => cases h; simp [isObxList, isObxSeg, add_obx_segment]
    | int n => cases h; simp [isObxList, isObxSeg, add_obx_segment]
    | str sv => cases h; simp [isObxList, isObxSeg, add_obx_segment]
    | obj kvs => cases h; simp [isObxList, isObxSeg, add_obx_segment]

/-- The field loop of `_build_obr_section` emits only OBX segments. -/
theorem obx_fields_loop_obx (secs : List (String × List FieldConfig)) (sec : String)
    (d : Json) :
    ∀ (fcs : List FieldConfig) (oc xc : Nat) (segs : List Seg),
    obx_fields_loop secs sec d fcs oc xc = .ok segs → isObxList segs = true := by
  intro fcs
  induction fcs with
  | nil =>
      intro oc xc segs h
      simp only [obx_fields_loop] at h
      cases h
      simp [isObxList]
  | cons fc rest ih =>
      intro oc xc segs h
      obtain ⟨v, s1, oc1, xc1, s2, h0, h1, h2, rfl⟩ :=
        obx_fields_loop_cons_inv secs sec d fc rest oc xc segs h
      have hstep := obx_field_step_obx secs fc v oc xc (s1, oc1, xc1) h1
      have hrest := ih oc1 xc1 s2 h2
      rw [isObxList_append]
      simp_all

/-- Shape of one OBR section's output: nothing (unknown section), or exactly
one parent line carrying the passed counter followed by OBX lines only. -/
theorem build_obr_section_shape (m : Mappings) (sec : String) (d : Json) (oc : Nat)
    (segs : List Seg) (h : build_obr_section m sec d oc = .ok segs) :
    segs = [] ∨ ∃ ident dn tail, segs = Seg.obr oc ident dn :: tail ∧ isObxList tail = true := by
  unfold build_obr_section at h
  cases h1 : lookupA m.segments "OBR" with
  | none => rw [h1] at h; exact absurd h (by simp)
  | some obrMap =>
      rw [h1] at h
      simp only [] at h
      cases h2 : lookupA obrMap sec with
      | none =>
          rw [h2] at h
          simp only [] at h
          left
          exact (Except.ok.inj h).symm
      | some obr_config =>
          rw [h2] at h
          simp only [] at h
          cases h3 : obx_fields_loop m.obr_sections sec d
              ((lookupA m.obr_sections sec).getD []) oc 1 with
          | error e => rw [h3, pe_bind_err] at h; exact absurd h (by simp)
          | ok tail =>
              rw [h3, pe_bind_ok] at h
              right
              refine ⟨obr_config.identifier, obr_config.display_name, tail, ?_, ?_⟩
              · simpa using h.symm
              · exact obx_fields_loop_obx m.obr_sections sec d _ oc 1 tail h3

/-- The parent counters emitted by the section loop are strictly increasing
and bounded below by the starting counter, and the loop emits no
current-time tokens. -/
theorem obr_sections_loop_inv (m : Mappings) (d : Json) :
    ∀ (secNames : List String) (oc : Nat) (segs : List Seg),
    obr_sections_loop m d secNames oc = .ok segs →
    (obrIdsOf segs).Pairwise (· < ·) ∧ (∀ x ∈ obrIdsOf segs, oc ≤ x) ∧
      nowTokens segs = [] := by
  intro secNames
  induction secNames with
  | nil =>
      intro oc segs h
      simp only [obr_sections_loop] at h
      cases h
      simp [obrIdsOf, nowTokens]
  | cons sec rest ih =>
      intro oc segs h
      unfold obr_sections_loop at h
      cases h1 : build_obr_section m sec d oc with
      | error e => rw [h1, pe_bind_err] at h; exact absurd h (by simp)
      | ok s1 =>
          rw [h1, pe_bind_ok] at h
          simp only [] at h
          cases h2 : obr_sections_loop m d rest
              (if s1.isEmpty = true then oc else oc + count_obr_lines s1) with
          | error e => rw [h2, pe_bind_err] at h; exact absurd h (by simp)
          | ok s2 =>
              rw [h2, pe_bind_ok] at h
              have hres : s1 ++ s2 = segs := by simpa using h
              obtain ⟨ih1, ih2, ih3⟩ := ih _ _ h2
              rcases build_obr_section_shape m sec d oc s1 h1 with rfl | ⟨ident, dn, tail, rfl, htail⟩
              · rw [List.nil_append] at hres
                subst hres
                simp only [List.isEmpty_nil, if_true] at ih2
                exact ⟨ih1, ih2, ih3⟩
              · have hcount : count_obr_lines (Seg.obr oc ident dn :: tail) = 1 :=
                  count_obr_lines_section oc ident dn tail htail
                rw [if_neg (by simp)] at ih2
                rw [hcount] at ih2
                have hids1 : obrIdsOf (Seg.obr oc ident dn :: tail) = [oc] := by
                  have hob := obrIdsOf_obxList tail htail
                  simp [obrIdsOf] at hob ⊢
                  exact hob
                have hnow1 : nowTokens (Seg.obr oc ident dn :: tail) = [] := by
                  have hnt := nowTokens_obxList tail htail
                  simp [nowTokens] at hnt ⊢
                  exact ⟨rfl, hnt⟩
                refine ⟨?_, ?_, ?_⟩
                · rw [← hres, obrIdsOf_append, hids1]
                  rw [List.pairwise_append]
                  refine ⟨by simp, ih1, ?_⟩
                  intro a ha b hb
                  have hb2 := ih2 b hb
                  simp at ha
                  omega
                · intro x hx
                  rw [← hres, obrIdsOf_append, hids1] at hx
                  rcases List.mem_append.1 hx with hx1 | hx2
                  · simp at hx1
                    omega
                  · have := ih2 x hx2
                    omega
                · rw [← hres, nowTokens_append, hnow1, ih3]
                  rfl

/-! ## Shape lemmas about the fixed segment builders -/

/-- Successful BHS build: one batch-header segment carrying the clock sample
at the entry index, and exactly one clock tick consumed. -/
theorem build_BHS_shape (d : Json) (clk : Nat → String) (i : Nat) (s : List Seg) (j : Nat)
    (h : build_BHS d clk i = (.ok s, j)) :
    (∃ ty bid, s = [Seg.bhs (clk i) ty bid]) ∧ j = i + 1 := by
  unfold build_BHS at h
  cases d with
  | obj kvs =>
      simp only [] at h
      cases hb : kvs.getD "BATCH" (.obj .nil) with
      | obj bkvs =>
          rw [hb] at h
          simp only [Prod.mk.injEq] at h
          obtain ⟨h1, h2⟩ := h
          exact ⟨⟨_, _, (Except.ok.inj h1).symm⟩, h2.symm⟩
      | null => rw [hb] at h; simp at h
      | bool b => rw [hb] at h; simp at h
      | int n => rw [hb] at h; simp at h
      | str sv => rw [hb] at h; simp at h
      | list xs => rw [hb] at h; simp at h
  | null => simp at h
  | bool b => simp at h
  | int n => simp at h
  | str sv => simp at h
  | list xs => simp at h

/-- Successful PID build: one patient-identification segment. -/
theorem build_PID_shape (segs0 : List (String × List (String × FieldConfig))) (d : Json)
    (sid : Nat) (s : List Seg) (h : build_PID segs0 d sid = .ok s) :
    ∃ ids nm, s = [Seg.pid sid ids nm] := by
  unfold build_PID at h
  cases h0 : lookupA segs0 "PID" with
  | none => rw [h0] at h; exact absurd h (by simp)
  | some pidMap =>
      rw [h0] at h
      simp only [] at h
      cases h1 : pid_id_fields d pidMap with
      | error e => rw [h1, pe_bind_err] at h; exact absurd h (by simp)
      | ok ids =>
          rw [h1, pe_bind_ok] at h
          cases h2 : get_field_value d "PATIENT_INFO.FIRST_NAME" with
          | error e => rw [h2, pe_bind_err] at h; exact absurd h (by simp)
          | ok fn =>
              rw [h2, pe_bind_ok] at h
              cases h3 : get_field_value d "PATIENT_INFO.LAST_NAME" with
              | error e => rw [h3, pe_bind_err] at h; exact absurd h (by simp)
              | ok ln =>
                  rw [h3, pe_bind_ok] at h
                  cases h4 : get_field_value d "PATIENT_INFO.MIDDLE_NAME" with
                  | error e => rw [h4, pe_bind_err] at h; exact absurd h (by simp)
                  | ok mn =>
                      rw [h4, pe_bind_ok] at h
                      exact ⟨ids, _, (Except.ok.inj h).symm⟩

/-- Successful PV1 build: one visit segment. -/
theorem build_PV1_shape (d : Json) (sid : Nat) (s : List Seg)
    (h : build_PV1 d sid = .ok s) : ∃ cl, s = [Seg.pv1 sid cl] := by
  unfold build_PV1 at h
  cases h0 : get_field_value d "PATIENT_INFO.CLINIC_NAME" with
  | error e => rw [h0, pe_bind_err] at h; exact absurd h (by simp)
  | ok v =>
      rw [h0, pe_bind_ok] at h
      exact ⟨_, (Except.ok.inj h).symm⟩

/-- Successful ORC build: one order-control segment carrying the clock sample
at the entry index, and exactly one clock tick consumed. -/
theorem build_ORC_shape (d : Json) (clk : Nat → String) (i : Nat) (s : List Seg) (j : Nat)
    (h : build_ORC d clk i = (.ok s, j)) :
    (∃ t, s = [Seg.orc t (clk i)]) ∧ j = i + 1 := by
  unfold build_ORC at h
  cases h0 : get_field_value d "PATIENT_INFO.TREATMENT_ID" with
  | error e => rw [h0] at h; exact absurd h (by simp)
  | ok v =>
      rw [h0] at h
      simp only [Prod.mk.injEq] at h
      obtain ⟨h1, h2⟩ := h
      exact ⟨⟨_, (Except.ok.inj h1).symm⟩, h2.symm⟩

/-- `build_segment` at the five dispatched names, as definitional equations. -/
theorem build_segment_MSH (m : Mappings) (d : Json) (sid : Nat) (clk : Nat → String)
    (i : Nat) :
    build_segment m "MSH" d sid clk i = (.ok [Seg.msh (clk i) (clk (i + 1)) hl7_version], i + 2) := rfl

/-- BHS dispatch. -/
theorem build_segment_BHS (m : Mappings) (d : Json) (sid : Nat) (clk : Nat → String)
    (i : Nat) : build_segment m "BHS" d sid clk i = build_BHS d clk i := rfl

/-- PID dispatch. -/
theorem build_segment_PID (m : Mappings) (d : Json) (sid : Nat) (clk : Nat → String)
    (i : Nat) : build_segment m "PID" d sid clk i = (build_PID m.segments d sid, i) := rfl

/-- PV1 dispatch. -/
theorem build_segment_PV1 (m : Mappings) (d : Json) (sid : Nat) (clk : Nat → String)
    (i : Nat) : build_segment m "PV1" d sid clk i = (build_PV1 d sid, i) := rfl

/-- ORC dispatch. -/
theorem build_segment_ORC (m : Mappings) (d : Json) (sid : Nat) (clk : Nat → String)
    (i : Nat) : build_segment m "ORC" d sid clk i = build_ORC d clk i := rfl

/-- Decomposition of a successful message build: the fixed prefix in order
(batch-header, header, patient-id, visit, order-control, the fixed device
OBR, two notes, optional device OBX), then the configured sections from
counter 2, then the trailer; the four clock samples land in BHS, MSH (twice)
and ORC, and exactly four ticks are consumed. -/
theorem generate_segs_core_shape (m : Mappings) (d : Json) (clk : Nat → String) (i : Nat)
    (segs : List Seg) (i2 : Nat) (h : generate_segs_core m d clk i = (.ok segs, i2)) :
    ∃ ty bid ids nm cl otid ntid dev obrSegs,
      segs = [Seg.bhs (clk i) ty bid, Seg.msh (clk (i + 1)) (clk (i + 2)) hl7_version,
              Seg.pid 1 ids nm, Seg.pv1 1 cl, Seg.orc otid (clk (i + 3)), Seg.obrFixed,
              Seg.nte1 ntid, Seg.nte2] ++ dev ++ obrSegs ++ [Seg.bts] ∧
      (dev = [] ∨ ∃ dt, dev = [Seg.obxDevice dt]) ∧
      obr_sections_loop m d (m.obr_sections.map Prod.fst) 2 = .ok obrSegs ∧
      i2 = i + 4 := by
  unfold generate_segs_core at h
  rw [build_segment_BHS] at h
  cases hB : build_BHS d clk i with
  | mk rB jB =>
      rw [hB] at h
      cases rB with
      | error e => simp at h
      | ok s1 =>
          simp only [] at h
          obtain ⟨⟨ty, bid, rfl⟩, rfl⟩ := build_BHS_shape d clk i s1 jB hB
          rw [build_segment_MSH] at h
          simp only [] at h
          rw [build_segment_PID] at h
          cases hP : build_PID m.segments d 1 with
          | error e => rw [hP] at h; simp at h
          | ok s3 =>
              rw [hP] at h
              simp only [] at h
              obtain ⟨ids, nm, rfl⟩ := build_PID_shape m.segments d 1 s3 hP
              rw [build_segment_PV1] at h
              cases hV : build_PV1 d 1 with
              | error e => rw [hV] at h; simp at h
              | ok s4 =>
                  rw [hV] at h
                  simp only [] at h
                  obtain ⟨cl, rfl⟩ := build_PV1_shape d 1 s4 hV
                  rw [build_segment_ORC] at h
                  cases hO : build_ORC d clk (i + 1 + 2) with
                  | mk rO jO =>
                      rw [hO] at h
                      cases rO with
                      | error e => simp at h
                      | ok s5 =>
                          simp only [] at h
                          obtain ⟨⟨otid, rfl⟩, rfl⟩ :=
                            build_ORC_shape d clk (i + 1 + 2) s5 jO hO
                          cases hT : get_field_value d "PATIENT_INFO.TREATMENT_ID" with
                          | error e => rw [hT] at h; simp at h
                          | ok tid =>
                              rw [hT] at h
                              simp only [] at h
                              cases hD : get_field_value d "PATIENT_INFO.DEVICE_TYPE" with
                              | error e => rw [hD] at h; simp at h
                              | ok dv =>
                                  rw [hD] at h
                                  simp only [] at h
                                  cases hL : obr_sections_loop m d
                                      (m.obr_sections.map Prod.fst) 2 with
                                  | error e => rw [hL] at h; simp at h
                                  | ok obrSegs =>
                                      rw [hL] at h
                                      simp only [Prod.mk.injEq] at h
                                      obtain ⟨h1, h2⟩ := h
                                      refine ⟨ty, bid, ids, nm, cl, otid, orEmptyStr tid,
                                        (if pyTruthy dv then [Seg.obxDevice (pyStr dv)] else []),
                                        obrSegs, ?_, ?_, ?_, ?_⟩
                                      · have := (Except.ok.inj h1).symm
                                        rw [this]
                                        simp
                                      · by_cases hdv : pyTruthy dv = true
                                        · right
                                          exact ⟨pyStr dv, by rw [if_pos hdv]⟩
                                        · left
                                          rw [if_neg hdv]
                                      · rfl
                                      · omega

/-! ## C3, C1, C2 -/

/-- C3: across all parent (OBR) lines of one generated message — the fixed
device OBR line (counter 1) and every configured group's parent line — the
parent counters are strictly increasing in emission order: the message-global
counter never resets between groups and no two parent lines share a value. -/
theorem c3_obr_counters_monotone (m : Mappings) (jd : Json) (clk : Nat → String)
    (i : Nat) (segs : List Seg) (i2 : Nat)
    (h : generate_segs m jd clk i = (.ok segs, i2)) :
    (obrIdsOf segs).Pairwise (· < ·) := by
  unfold generate_segs at h
  obtain ⟨ty, bid, ids, nm, cl, otid, ntid, dev, obrSegs, rfl, hdev, hloop, rfl⟩ :=
    generate_segs_core_shape m _ clk i _ i2 h
  obtain ⟨hpair, hge, -⟩ := obr_sections_loop_inv m _ _ 2 obrSegs hloop
  rw [obrIdsOf_append, obrIdsOf_append, obrIdsOf_append]
  have hdev2 : obrIdsOf dev = [] := by
    rcases hdev with rfl | ⟨dt, rfl⟩ <;> rfl
  rw [hdev2]
  rw [show obrIdsOf [Seg.bhs (clk i) ty bid,
      Seg.msh (clk (i + 1)) (clk (i + 2)) hl7_version, Seg.pid 1 ids nm, Seg.pv1 1 cl,
      Seg.orc otid (clk (i + 3)), Seg.obrFixed, Seg.nte1 ntid, Seg.nte2] = [1] from rfl]
  rw [show obrIdsOf [Seg.bts] = [] from rfl]
  simp only [List.append_nil, List.nil_append, List.singleton_append]
  rw [List.pairwise_cons]
  refine ⟨?_, hpair⟩
  intro x hx
  have := hge x hx
  omega

/-- Witness for C3: the concrete two-cycle message carries the strictly
increasing parent counters `[1, 2]`. -/
theorem c3_witness : (obrIdsOf c1full).Pairwise (· < ·) :=
  c3_obr_counters_monotone c1map c1record clkConst 0 c1full 4 rfl

/-- C1 counterexample: against the group `ACTUAL_THERAPY` configured with 3
child fields, the record whose group-bound attribute resolves to a 2-element
sequence of cycle sub-records produces exactly ONE parent (OBR) line for the
group, not the two the claim requires: `_process_nested_obx` emits only OBX
lines and the incremented parent counter never materializes as a parent
line. -/
theorem c1_counterexample :
    build_dynamic_mappings c1rows = .ok c1map ∧
    ((lookupA c1map.obr_sections "ACTUAL_THERAPY").getD []).length = 3 ∧
    get_field_value (normalize_json_data c1record) "ACTUAL_THERAPY" =
      .ok (.list (jlist [c1cyc 100 600, c1cyc 110 610])) ∧
    build_obr_section c1map "ACTUAL_THERAPY" (normalize_json_data c1record) 2 =
      .ok c1section ∧
    (obrIdsOf c1section).length = 1 ∧ (1 : Nat) ≠ 2 :=
  ⟨rfl, rfl, rfl, rfl, rfl, by decide⟩

/-- C1 (amended): a configured group emits AT MOST ONE parent (OBR) line per
message, whatever the data; for each cycle sub-record the local child counter
resets to 1 and the parent-reference counter increments, so in the concrete
3-child-field, 2-cycle scenario the group yields one parent line (counter 2)
and two child lines per cycle (at most 3), the second cycle's child lines
referencing parent counter 3 for which no parent line is emitted. -/
theorem c1_amended :
    (∀ (m : Mappings) (sec : String) (d : Json) (oc : Nat) (segs : List Seg),
       build_obr_section m sec d oc = .ok segs → (obrIdsOf segs).length ≤ 1) ∧
    build_obr_section c1map "ACTUAL_THERAPY" (normalize_json_data c1record) 2 =
      .ok c1section ∧
    c1section = [Seg.obr 2 "ATH" "Actual Therapy",
      Seg.obx 1 "NM" "FV" "Fill Volume" 2 "100" "ml",
      Seg.obx 2 "NM" "DW" "Dwell Time" 2 "600" "",
      Seg.obx 1 "NM" "FV" "Fill Volume" 3 "110" "ml",
      Seg.obx 2 "NM" "DW" "Dwell Time" 3 "610" ""] := by
  refine ⟨?_, rfl, rfl⟩
  intro m sec d oc segs h
  rcases build_obr_section_shape m sec d oc segs h with rfl | ⟨ident, dn, tail, rfl, htail⟩
  · simp [obrIdsOf]
  · have hids : obrIdsOf (Seg.obr oc ident dn :: tail) = [oc] := by
      have hob := obrIdsOf_obxList tail htail
      simp [obrIdsOf] at hob ⊢
      exact hob
    rw [hids]
    simp

/-- Witness for C1 (amended): the concrete scenario's section output has
exactly one parent line. -/
theorem c1_amended_witness : (obrIdsOf c1section).length ≤ 1 :=
  c1_amended.1 c1map "ACTUAL_THERAPY" (normalize_json_data c1record) 2 c1section rfl

/-- C2 counterexample: under a clock that ticks between samples, one
generated message's now-carrying segments hold four DIFFERENT timestamp
strings — the header alone holds two distinct samples — so the timestamp is
not generated once and reused. -/
theorem c2_counterexample :
    generate_segs c5mapping c5record clkCount 0 = (.ok c2segs, 4) ∧
    Seg.bhs "0" "Normal" "" ∈ c2segs ∧
    Seg.msh "1" "2" hl7_version ∈ c2segs ∧
    Seg.orc "" "3" ∈ c2segs ∧
    ("1" : String) ≠ "2" ∧ ("0" : String) ≠ "3" := by
  refine ⟨rfl, ?_, ?_, ?_, ?_, ?_⟩ <;> decide

/-- C2 (amended): the current time is sampled afresh at every use: a
successfully generated message carries, in emission order, exactly four
consecutive clock samples as its now-tokens (batch-header one, header two,
order-control one), and consumes exactly four ticks; the tokens coincide
only when the clock returns the same string for all four samples. -/
theorem c2_amended (m : Mappings) (jd : Json) (clk : Nat → String) (i : Nat)
    (segs : List Seg) (i2 : Nat) (h : generate_segs m jd clk i = (.ok segs, i2)) :
    nowTokens segs = [clk i, clk (i + 1), clk (i + 2), clk (i + 3)] ∧ i2 = i + 4 := by
  unfold generate_segs at h
  obtain ⟨ty, bid, ids, nm, cl, otid, ntid, dev, obrSegs, rfl, hdev, hloop, rfl⟩ :=
    generate_segs_core_shape m _ clk i _ i2 h
  obtain ⟨-, -, hnow⟩ := obr_sections_loop_inv m _ _ 2 obrSegs hloop
  refine ⟨?_, rfl⟩
  rw [nowTokens_append, nowTokens_append, nowTokens_append]
  have hdev2 : nowTokens dev = [] := by
    rcases hdev with rfl | ⟨dt, rfl⟩ <;> rfl
  rw [hdev2, hnow]
  rfl

/-- Witness for C2 (amended): on the ticking clock the four now-tokens of the
concrete message are the four distinct samples `"0" "1" "2" "3"`. -/
theorem c2_amended_witness :
    nowTokens c2segs = ["0", "1", "2", "3"] ∧ (4 : Nat) = 0 + 4 :=
  c2_amended c5mapping c5record clkCount 0 c2segs 4 rfl

/-! ## C7: batch isolation -/

/-- The BHS builder's error outcome does not depend on the clock stream or
index. -/
theorem build_BHS_err_eq (d : Json) (clk clk2 : Nat → String) (i i2 : Nat) :
    exErr (build_BHS d clk i).1 = exErr (build_BHS d clk2 i2).1 := by
  cases d <;> simp [build_BHS, exErr]
  case obj kvs =>
    cases hb : JObj.getD kvs "BATCH" (.obj .nil) <;> simp [exErr]

/-- The ORC builder's error outcome does not depend on the clock stream or
index. -/
theorem build_ORC_err_eq (d : Json) (clk clk2 : Nat → String) (i i2 : Nat) :
    exErr (build_ORC d clk i).1 = exErr (build_ORC d clk2 i2).1 := by
  unfold build_ORC
  cases h : get_field_value d "PATIENT_INFO.TREATMENT_ID" <;> simp [exErr]

/-- Whether (and with which exception) a message build fails depends only on
the configuration and the record, never on the clock index: the wall clock
only fills string slots. -/
theorem generate_core_exErr_indep (m : Mappings) (d : Json) (clk : Nat → String)
    (i i2 : Nat) :
    exErr (generate_segs_core m d clk i).1 = exErr (generate_segs_core m d clk i2).1 := by
  unfold generate_segs_core
  rw [build_segment_BHS, build_segment_BHS]
  have hB := build_BHS_err_eq d clk clk i i2
  cases hB1 : build_BHS d clk i with
  | mk r1 j1 =>
    cases hB2 : build_BHS d clk i2 with
    | mk r2 j2 =>
      rw [hB1, hB2] at hB
      cases r1 with
      | error e1 =>
          cases r2 with
          | error e2 => simpa [exErr] using hB
          | ok s2 => simp [exErr] at hB
      | ok s1 =>
          cases r2 with
          | error e2 => simp [exErr] at hB
          | ok s2 =>
              simp only []
              rw [build_segment_MSH, build_segment_MSH]
              simp only []
              rw [build_segment_PID, build_segment_PID]
              cases hP : build_PID m.segments d 1 with
              | error e => simp [exErr]
              | ok s3 =>
                  simp only []
                  rw [build_segment_PV1, build_segment_PV1]
                  cases hV : build_PV1 d 1 with
                  | error e => simp [exErr]
                  | ok s4 =>
                      simp only []
                      rw [build_segment_ORC, build_segment_ORC]
                      have hO := build_ORC_err_eq d clk clk (j1 + 2) (j2 + 2)
                      cases hO1 : build_ORC d clk (j1 + 2) with
                      | mk q1 t1 =>
                        cases hO2 : build_ORC d clk (j2 + 2) with
                        | mk q2 t2 =>
                          rw [hO1, hO2] at hO
                          cases q1 with
                          | error e1 =>
                              cases q2 with
                              | error e2 => simpa [exErr] using hO
                              | ok s5 => simp [exErr] at hO
                          | ok s5 =>
                              cases q2 with
                              | error e2 => simp [exErr] at hO
                              | ok s6 =>
                                  simp only []
                                  cases hT : get_field_value d "PATIENT_INFO.TREATMENT_ID" with
                                  | error e => simp [exErr]
                                  | ok tid =>
                                      simp only []
                                      cases hD : get_field_value d "PATIENT_INFO.DEVICE_TYPE" with
                                      | error e => simp [exErr]
                                      | ok dv =>
                                          simp only []
                                          cases hL : obr_sections_loop m d
                                              (m.obr_sections.map Prod.fst) 2 with
                                          | error e => simp [exErr]
                                          | ok obrSegs => simp [exErr]

/-- Per-position specification of the batch loop: position `k` holds an
outcome with sequence `s + k` and timestamp sample `j + k`, determined by
record `k`'s own encoding at some clock index. -/
theorem process_batch_from_spec (m : Mappings) (clk isoClk : Nat → String) :
    ∀ (datas : List Json) (s i j : Nat),
    (process_batch_from m clk isoClk datas s i j).length = datas.length ∧
    ∀ (k : Nat) (hk : k < datas.length),
      ∃ o ck, (process_batch_from m clk isoClk datas s i j).get? k = some o ∧
        ((∃ msg j2, generate_hl7 m (datas.get ⟨k, hk⟩) clk ck = (.ok msg, j2) ∧
            o = ⟨s + k, "success", some msg, none, isoClk (j + k)⟩) ∨
         (∃ e j2, generate_hl7 m (datas.get ⟨k, hk⟩) clk ck = (.error e, j2) ∧
            o = ⟨s + k, "error", none, some (pyExcText e), isoClk (j + k)⟩)) := by
  intro datas
  induction datas with
  | nil =>
      intro s i j
      exact ⟨rfl, fun k hk => absurd hk (by simp)⟩
  | cons d ds ih =>
      intro s i j
      constructor
      · unfold process_batch_from
        cases hg : generate_hl7 m d clk i with
        | mk r i2 =>
            cases r <;> simp [(ih (s + 1) i2 (j + 1)).1]
      · intro k hk
        cases k with
        | zero =>
            cases hg : generate_hl7 m d clk i with
            | mk r i2 =>
              cases r with
              | ok msg =>
                  refine ⟨⟨s, "success", some msg, none, isoClk j⟩, i, ?_, ?_⟩
                  · unfold process_batch_from
                    rw [hg]
                    simp
                  · left
                    exact ⟨msg, i2, by simpa using hg, by simp⟩
              | error e =>
                  refine ⟨⟨s, "error", none, some (pyExcText e), isoClk j⟩, i, ?_, ?_⟩
                  · unfold process_batch_from
                    rw [hg]
                    simp
                  · right
                    exact ⟨e, i2, by simpa using hg, by simp⟩
        | succ k2 =>
            have hk2 : k2 < ds.length := by simpa using hk
            cases hg : generate_hl7 m d clk i with
            | mk r i2 =>
              obtain ⟨o, ck, hget, hcase⟩ := (ih (s + 1) i2 (j + 1)).2 k2 hk2
              refine ⟨o, ck, ?_, ?_⟩
              · unfold process_batch_from
                rw [hg]
                cases r <;> simpa using hget
              · have harith1 : s + 1 + k2 = s + (k2 + 1) := by omega
                have harith2 : j + 1 + k2 = j + (k2 + 1) := by omega
                rw [harith1, harith2] at hcase
                exact hcase

/-- The message-level and segment-level results fail identically. -/
theorem generate_hl7_exErr (m : Mappings) (jd : Json) (clk : Nat → String) (i : Nat) :
    exErr (generate_hl7 m jd clk i).1 = exErr (generate_segs m jd clk i).1 := by
  unfold generate_hl7
  cases h : generate_segs m jd clk i with
  | mk r j => cases r <;> simp [exErr]

/-- C7: for every batch, the runner returns exactly one outcome per record in
the original order; outcome `k` carries the 1-based sequence number `k + 1`
and a timestamp; its status is success or error according to whether record
`k`'s own encoding succeeds (a fact independent of the clock index, hence of
the other records); a success carries the encoded message and no error text,
an error carries the error detail and no message.  One record's failure
never aborts the batch or shifts any other outcome. -/
theorem c7_batch_isolated (m : Mappings) (datas : List Json) (clk isoClk : Nat → String)
    (k : Nat) (hk : k < datas.length) :
    (process_batch m datas clk isoClk).length = datas.length ∧
    ∃ o, (process_batch m datas clk isoClk).get? k = some o ∧
      o.sequence = k + 1 ∧
      o.timestamp = isoClk k ∧
      (o.status = "success" ∨ o.status = "error") ∧
      (o.status = "success" ↔ exErr (generate_segs m (datas.get ⟨k, hk⟩) clk 0).1 = none) ∧
      (o.status = "success" → o.errorText = none ∧
        ∃ ck msg j2, generate_hl7 m (datas.get ⟨k, hk⟩) clk ck = (.ok msg, j2) ∧
          o.hl7_message = some msg) ∧
      (o.status = "error" → o.hl7_message = none ∧
        ∃ ck e j2, generate_hl7 m (datas.get ⟨k, hk⟩) clk ck = (.error e, j2) ∧
          o.errorText = some (pyExcText e)) := by
  obtain ⟨hlen, hspec⟩ := process_batch_from_spec m clk isoClk datas 1 0 0
  obtain ⟨o, ck, hget, hcase⟩ := hspec k hk
  have hindep : exErr (generate_segs m (datas.get ⟨k, hk⟩) clk ck).1 =
      exErr (generate_segs m (datas.get ⟨k, hk⟩) clk 0).1 :=
    generate_core_exErr_indep m (normalize_json_data (datas.get ⟨k, hk⟩)) clk ck 0
  refine ⟨hlen, o, hget, ?_, ?_, ?_, ?_, ?_, ?_⟩
  · rcases hcase with ⟨msg, j2, hg, rfl⟩ | ⟨e, j2, hg, rfl⟩ <;> simp <;> omega
  · rcases hcase with ⟨msg, j2, hg, rfl⟩ | ⟨e, j2, hg, rfl⟩ <;> simp
  · rcases hcase with ⟨msg, j2, hg, rfl⟩ | ⟨e, j2, hg, rfl⟩
    · left; rfl
    · right; rfl
  · rcases hcase with ⟨msg, j2, hg, rfl⟩ | ⟨e, j2, hg, rfl⟩
    · have h1 : exErr (generate_hl7 m (datas.get ⟨k, hk⟩) clk ck).1 = none := by
        rw [hg]
        rfl
      rw [generate_hl7_exErr, hindep] at h1
      rw [h1]
      simp
    · have h1 : exErr (generate_hl7 m (datas.get ⟨k, hk⟩) clk ck).1 = some e := by
        rw [hg]
        rfl
      rw [generate_hl7_exErr, hindep] at h1
      rw [h1]
      simp
  · rcases hcase with ⟨msg, j2, hg, rfl⟩ | ⟨e, j2, hg, rfl⟩
    · intro _
      exact ⟨rfl, ck, msg, j2, hg, rfl⟩
    · intro hcontra
      simp at hcontra
  · rcases hcase with ⟨msg, j2, hg, rfl⟩ | ⟨e, j2, hg, rfl⟩
    · intro hcontra
      simp at hcontra
    · intro _
      exact ⟨rfl, ck, e, j2, hg, rfl⟩

/-- Witness for C7: a 2-record batch whose second record fails (its
`PATIENT_INFO` is a list with a non-dict element) yields 2 outcomes in
order: outcome 1 success, outcome 2 error, sequences 1 and 2. -/
theorem c7_witness :
    (process_batch c1map [c1record, c7bad] clkConst isoClkIdx).length = 2 ∧
    ∃ o, (process_batch c1map [c1record, c7bad] clkConst isoClkIdx).get? 1 = some o ∧
      o.sequence = 2 ∧ o.timestamp = isoClkIdx 1 ∧
      (o.status = "success" ∨ o.status = "error") ∧
      (o.status = "success" ↔
        exErr (generate_segs c1map ([c1record, c7bad].get ⟨1, by decide⟩) clkConst 0).1 = none) ∧
      (o.status = "success" → o.errorText = none ∧
        ∃ ck msg j2, generate_hl7 c1map ([c1record, c7bad].get ⟨1, by decide⟩) clkConst ck =
          (.ok msg, j2) ∧ o.hl7_message = some msg) ∧
      (o.status = "error" → o.hl7_message = none ∧
        ∃ ck e j2, generate_hl7 c1map ([c1record, c7bad].get ⟨1, by decide⟩) clkConst ck =
          (.error e, j2) ∧ o.errorText = some (pyExcText e)) :=
  c7_batch_isolated c1map [c1record, c7bad] clkConst isoClkIdx 1 (by decide)

/-- Witness for C4 (amended): applying the amended statement at concrete
rows — a non-empty sequence cell goes through `int(...)`, a row lacking the
sequence column cannot compile, and the empty-cell row compiles with the
999 default. -/
theorem c4_witness :
    parseSeqCell "abc" = pyInt "abc" ∧
    compileRow c4noSeqRow ≠ .ok ("PID", "CLINIC_PATIENT_ID", "",
      { identifier := "CPID", display_name := "Clinic Patient ID", data_type := "ST",
        unit := "", sequence := 999, json_attribute := "CLINIC_PATIENT_ID",
        child_obr := "", segment_id := "", hl7_key := "" }) ∧
    ({ identifier := "CPID", display_name := "Clinic Patient ID", data_type := "ST",
       unit := "", sequence := 999, json_attribute := "CLINIC_PATIENT_ID",
       child_obr := "", segment_id := "", hl7_key := "" } : FieldConfig).sequence = 999 :=
  ⟨c4_amended.2.1 "abc" (by decide),
   c4_amended.2.2.1 c4noSeqRow rfl _,
   c4_amended.2.2.2.1 c4emptyRow "PID" "CLINIC_PATIENT_ID" ""
     { identifier := "CPID", display_name := "Clinic Patient ID", data_type := "ST",
       unit := "", sequence := 999, json_attribute := "CLINIC_PATIENT_ID",
       child_obr := "", segment_id := "", hl7_key := "" } rfl rfl⟩
